import Mathlib

/-!
Verification of the UIGF/SRGF gacha-record split/merge/repair engine
(`file_processor.py`, `file_merger.py`, `file_repair.py`, `utils.py`,
`game_config.py`) against its natural-language specification.

Parsed JSON documents are modelled by the inductive type `JValue`
(JSON numbers appearing in these files are integers).  Python dicts are
modelled as association lists in insertion order: assignment to an
existing key keeps its position (`dictInsert`), assignment to a fresh key
appends.  Python `str()`, truthiness and `str.strip()` are modelled by
`pyStr`, `pyTruthy` and `pyStrip`.
-/

/-- A parsed JSON value, as produced by `json.load`. -/
inductive JValue where
  | null : JValue
  | bool (b : Bool) : JValue
  | int (n : Int) : JValue
  | str (s : String) : JValue
  | list (xs : List JValue) : JValue
  | obj (fs : List (String × JValue)) : JValue
deriving Repr

/-- First-match association-list lookup: Python `d[k]` / `d.get(k)` on a
dict whose entries are listed in insertion order. -/
def alookup {α : Type} : List (String × α) → String → Option α
  | [], _ => none
  | (k', v) :: rest, k => if k' = k then some v else alookup rest k

/-- The key sequence of a dict, in insertion order. -/
def dictKeys {α : Type} (d : List (String × α)) : List String :=
  d.map Prod.fst

/-- Python `d[k] = v`: replace the value at an existing key in place,
otherwise append the new binding at the end. -/
def dictInsert {α : Type} : List (String × α) → String → α → List (String × α)
  | [], k, v => [(k, v)]
  | (k', v') :: rest, k, v =>
      if k' = k then (k', v) :: rest else (k', v') :: dictInsert rest k v

mutual

/-- Python `repr` of a JSON value (string quoting simplified to bare
single quotes; the claims only exercise `repr` through `str` on
non-container values). -/
def pyRepr : JValue → String
  | .null => "None"
  | .bool true => "True"
  | .bool false => "False"
  | .int n => toString n
  | .str s => "\x27" ++ s ++ "\x27"
  | .list xs => "[" ++ pyReprList xs ++ "]"
  | .obj fs => "\x7b" ++ pyReprObj fs ++ "\x7d"

/-- Comma-separated `repr` of list elements. -/
def pyReprList : List JValue → String
  | [] => ""
  | [x] => pyRepr x
  | x :: xs => pyRepr x ++ ", " ++ pyReprList xs

/-- Comma-separated `repr` of dict entries. -/
def pyReprObj : List (String × JValue) → String
  | [] => ""
  | [(k, v)] => "\x27" ++ k ++ "\x27: " ++ pyRepr v
  | (k, v) :: fs => "\x27" ++ k ++ "\x27: " ++ pyRepr v ++ ", " ++ pyReprObj fs

end

/-- Python `str()` of a JSON value. -/
def pyStr : JValue → String
  | .str s => s
  | v => pyRepr v

/-- Python truthiness of a JSON value. -/
def pyTruthy : JValue → Bool
  | .null => false
  | .bool b => b
  | .int n => n != 0
  | .str s => !s.isEmpty
  | .list xs => !xs.isEmpty
  | .obj fs => !fs.isEmpty

/-- The whitespace characters stripped by Python `str.strip()`
(ASCII range). -/
def isPySpace (c : Char) : Bool :=
  c = ' ' || c = '\t' || c = '\n' || c = '\x0d' || c = '\x0b' || c = '\x0c'

/-- `str.strip()` on a character list. -/
def pyStripList (l : List Char) : List Char :=
  ((l.dropWhile isPySpace).reverse.dropWhile isPySpace).reverse

/-- Python `str.strip()`. -/
def pyStrip (s : String) : String :=
  ⟨pyStripList s.data⟩

/-- Python `str.isdigit()` (ASCII digits). -/
def pyIsdigit (s : String) : Bool :=
  !s.isEmpty && s.data.all Char.isDigit

/-- Numeric value of a nonempty ASCII digit list. -/
def digitsVal (l : List Char) : Nat :=
  l.foldl (fun a c => a * 10 + (c.toNat - '0'.toNat)) 0

/-- Python `int()` applied to a string: strip whitespace, optional sign,
then a nonempty run of digits. -/
def pyParseInt (s : String) : Option Int :=
  match pyStripList s.data with
  | '-' :: ds => if !ds.isEmpty && ds.all Char.isDigit then some (-(digitsVal ds : Int)) else none
  | '+' :: ds => if !ds.isEmpty && ds.all Char.isDigit then some (digitsVal ds : Int) else none
  | ds => if !ds.isEmpty && ds.all Char.isDigit then some (digitsVal ds : Int) else none

/-- Python `int()` applied to a JSON value (`TypeError` on containers and
`None` is modelled as `none`, exactly like a failed string parse: both are
caught by the same `except` clauses in the source). -/
def pyIntOfValue : JValue → Option Int
  | .int n => some n
  | .bool true => some 1
  | .bool false => some 0
  | .str s => pyParseInt s
  | _ => none

/-! ## `game_config.py` -/

/-- `GAME_CONFIGS[game_type]["gacha_types"]` via
`GameConfig.get_gacha_types`: the valid category codes, or `[]` for an
unsupported game type. -/
def get_gacha_types (game_type : String) : List String :=
  if game_type = "genshin" then ["100", "200", "301", "400", "302", "500"]
  else if game_type = "starrail" then ["1", "2", "11", "12", "21"]
  else []

/-- `GameConfig.get_file_format_info(game_type)["version_field"]`
(`none` when the game type is unsupported). -/
def get_version_field (game_type : String) : Option String :=
  if game_type = "genshin" then some "uigf_version"
  else if game_type = "starrail" then some "srgf_version"
  else none

/-- `GameConfig.should_merge_gacha_type`: the category-merge mapping
(`{"400": "301"}` for genshin, empty for starrail), defaulting to the
input category. -/
def should_merge_gacha_type (game_type : String) (gacha_type : String) : String :=
  if game_type = "genshin" then (if gacha_type = "400" then "301" else gacha_type)
  else gacha_type

/-! ## `utils.py` : `validate_json_structure` and `extract_uid_from_data` -/

/-- The required info fields checked by `validate_json_structure`. -/
def infoRequiredFields : List String := ["uid", "lang", "export_time"]

/-- The required record fields checked by `validate_json_structure`. -/
def requiredRecordFields : List String :=
  ["gacha_type", "time", "name", "item_type", "rank_type", "id"]

/-- The `for field in required_info_fields` loop of
`validate_json_structure`: first missing or empty field, if any. -/
def checkInfoFields (info : List (String × JValue)) : List String → Option String
  | [] => none
  | f :: rest =>
    match alookup info f with
    | none => some s!"文件格式错误：info中缺少{f}字段"
    | some v =>
      if !pyTruthy v || pyStrip (pyStr v) = "" then
        some s!"文件格式错误：info中{f}字段不能为空"
      else checkInfoFields info rest

/-- The game-specific version-field check of `validate_json_structure`
(skipped entirely when the game type is unsupported). -/
def checkVersionField (game_type : String) (info : List (String × JValue)) : Option String :=
  match get_version_field game_type with
  | none => none
  | some vf =>
    match alookup info vf with
    | none => some s!"文件格式错误：info中缺少{vf}字段"
    | some v =>
      if !pyTruthy v || pyStrip (pyStr v) = "" then
        some s!"文件格式错误：info中{vf}字段不能为空"
      else none

/-- The ways a sampled record can fail `validate_json_structure`,
in the order the source tests them. -/
inductive RecViolation where
  | notObject : RecViolation
  | missingField (f : String) : RecViolation
  | emptyField (f : String) : RecViolation
  | badGachaType (g : String) : RecViolation
  | shortTime : RecViolation
deriving Repr, DecidableEq

/-- The `for field in required_record_fields` loop over one record. -/
def fieldCheckLoop (fs : List (String × JValue)) : List String → Option RecViolation
  | [] => none
  | f :: rest =>
    match alookup fs f with
    | none => some (.missingField f)
    | some v =>
      if (f = "gacha_type" || f = "time" || f = "id")
          && (!pyTruthy v || pyStrip (pyStr v) = "") then
        some (.emptyField f)
      else fieldCheckLoop fs rest

/-- Classify the first violation of one sampled record, following the
source order: object check, required/empty fields, `gacha_type`
membership, `time` length. -/
def recordViolation (game_type : String) (r : JValue) : Option RecViolation :=
  match r with
  | .obj fs =>
    match fieldCheckLoop fs requiredRecordFields with
    | some v => some v
    | none =>
      let g := pyStr ((alookup fs "gacha_type").getD .null)
      let types := get_gacha_types game_type
      if !types.isEmpty && !types.contains g then some (.badGachaType g)
      else if (pyStr ((alookup fs "time").getD .null)).length < 10 then some .shortTime
      else none
  | _ => some .notObject

/-- Render a record violation as the source error message for the record
at (0-based) index `i`. -/
def renderViolation (game_type : String) (i : Nat) : RecViolation → String
  | .notObject => s!"文件格式错误：第{i+1}条记录必须是对象"
  | .missingField f => s!"文件格式错误：第{i+1}条记录中缺少{f}字段"
  | .emptyField f => s!"文件格式错误：第{i+1}条记录中{f}字段不能为空"
  | .badGachaType g =>
      s!"文件格式错误：第{i+1}条记录中gacha_type \x27{g}\x27 不是{game_type}游戏支持的类型"
  | .shortTime => s!"文件格式错误：第{i+1}条记录中time字段格式不正确"

/-- The `for i in range(sample_size)` loop of `validate_json_structure`:
first error message among the given records, numbering from index `i`. -/
def checkRecordsLoop (game_type : String) (i : Nat) : List JValue → Option String
  | [] => none
  | r :: rest =>
    match recordViolation game_type r with
    | some v => some (renderViolation game_type i v)
    | none => checkRecordsLoop game_type (i + 1) rest

/-- `validate_json_structure(data, game_type)`: `none` means the pair
`(True, None)` was returned, `some msg` means `(False, msg)`. -/
def validate_json_structure (data : JValue) (game_type : String) : Option String :=
  match data with
  | .obj fs =>
    match alookup fs "info" with
    | none => some "文件格式错误：缺少info字段"
    | some infoV =>
      match alookup fs "list" with
      | none => some "文件格式错误：缺少list字段"
      | some listV =>
        match infoV with
        | .obj infoFs =>
          match checkInfoFields infoFs infoRequiredFields with
          | some e => some e
          | none =>
            match checkVersionField game_type infoFs with
            | some e => some e
            | none =>
              match listV with
              | .list recs => checkRecordsLoop game_type 0 (recs.take 5)
              | _ => some "文件格式错误：list字段必须是数组"
        | _ => some "文件格式错误：info字段必须是对象"
  | _ => some "文件格式错误：根对象必须是JSON对象"

/-- The fallback of `extract_uid_from_data`: the `uid` of the first
record of `data["list"]`, when present and truthy. -/
def extractUidFallback (fs : List (String × JValue)) : Option String :=
  match alookup fs "list" with
  | some (.list (first :: _)) =>
    match first with
    | .obj ffs =>
      match alookup ffs "uid" with
      | some v => if pyTruthy v then some (pyStr v) else none
      | none => none
    | _ => none
  | _ => none

/-- `extract_uid_from_data(data)`: `info["uid"]` when present and truthy,
else the first record fallback, else `None`. -/
def extract_uid_from_data (data : JValue) : Option String :=
  match data with
  | .obj fs =>
    match alookup fs "info" with
    | some (.obj infoFs) =>
      match alookup infoFs "uid" with
      | some v => if pyTruthy v then some (pyStr v) else extractUidFallback fs
      | none => extractUidFallback fs
    | _ => extractUidFallback fs
  | _ => none

/-! ## `file_merger.py` : `merge_records` and `validate_merge_files` -/

/-- `str(record.get("id", ""))` restricted to dict records: the dedup key
of `merge_records`, or `none` when it is the empty string (`if not
record_id: continue`). -/
def recIdOf (fs : List (String × JValue)) : Option String :=
  let k := pyStr ((alookup fs "id").getD (.str ""))
  if k = "" then none else some k

/-- The dedup key of an arbitrary list element: non-dict elements are
skipped (`if not isinstance(record, dict): continue`). -/
def recKey (r : JValue) : Option (String × List (String × JValue)) :=
  match r with
  | .obj fs => (recIdOf fs).map (fun k => (k, fs))
  | _ => none

/-- The keys contributed to the merge dict by a record list, in order. -/
def idsOf (recs : List JValue) : List String :=
  recs.filterMap (fun r => (recKey r).map Prod.fst)

/-- One step of the first `merge_records` loop: insert the record copy
under its id (overwriting an earlier record with the same id). -/
def mergeStep1 (d : List (String × List (String × JValue))) (r : JValue) :
    List (String × List (String × JValue)) :=
  match recKey r with
  | none => d
  | some (k, fs) => dictInsert d k fs

/-- One step of the second `merge_records` loop: on collision keep the
existing record and count a duplicate, otherwise insert. -/
def mergeStep2 (st : List (String × List (String × JValue)) × Nat) (r : JValue) :
    List (String × List (String × JValue)) × Nat :=
  match recKey r with
  | none => st
  | some (k, fs) =>
    if k ∈ dictKeys st.1 then (st.1, st.2 + 1) else (dictInsert st.1 k fs, st.2)

/-- The id-to-record dict built by `merge_records` (doc1 inserted first,
then doc2), together with the duplicate counter. -/
def mergedDictCount (records1 records2 : List JValue) :
    List (String × List (String × JValue)) × Nat :=
  records2.foldl mergeStep2 (records1.foldl mergeStep1 [], 0)

/-- The `merged_dict` of `merge_records`. -/
def mergedDict (records1 records2 : List JValue) :
    List (String × List (String × JValue)) :=
  (mergedDictCount records1 records2).1

/-- The statistics dict returned by `merge_records`. -/
structure MergeStats where
  file1_records : Nat
  file2_records : Nat
  duplicate_records : Nat
  unique_records : Nat
  total_merged_records : Nat
deriving Repr, DecidableEq

/-- `FileMerger.merge_records(records1, records2)`: the deduplicated
record list (`list(merged_dict.values())`) and the statistics. -/
def merge_records (records1 records2 : List JValue) :
    List (List (String × JValue)) × MergeStats :=
  let (d, dup) := mergedDictCount records1 records2
  (d.map Prod.snd,
   { file1_records := records1.length
     file2_records := records2.length
     duplicate_records := dup
     unique_records := d.length - dup
     total_merged_records := d.length })

/-- `data.get("list", [])` on a parsed document. -/
def dataGetList (data : JValue) : JValue :=
  match data with
  | .obj fs => (alookup fs "list").getD (.list [])
  | _ => .list []

/-- `FileMerger._check_game_type_compatibility`: collect (in first-seen
order, without repeats) the `gacha_type` values outside the configured
set; any such value makes the two files incompatible. -/
def invalidGachaTypes (game_type : String) (recs : List JValue) : List String :=
  recs.foldl
    (fun acc r =>
      match r with
      | .obj fs =>
        match alookup fs "gacha_type" with
        | some v =>
          let g := pyStr v
          if g ∉ get_gacha_types game_type && g ∉ acc then acc ++ [g] else acc
        | none => acc
      | _ => acc)
    []

/-- The outcome of the data-dependent part of
`FileMerger.validate_merge_files` (everything after both files have been
read and parsed). -/
inductive MergeCheck where
  | ok (uid : String) : MergeCheck
  | formatError1 (msg : String) : MergeCheck
  | formatError2 (msg : String) : MergeCheck
  | noUid1 : MergeCheck
  | noUid2 : MergeCheck
  | uidMismatch (uid1 uid2 file1 file2 : String) : MergeCheck
  | gameTypeIncompat (msg : String) : MergeCheck
  | badList1 : MergeCheck
  | badList2 : MergeCheck
  | tooManyRecords (n : Nat) : MergeCheck
  | noRecords : MergeCheck
deriving Repr, DecidableEq

/-- The data-dependent tail of `FileMerger.validate_merge_files` on two
parsed documents (`file1`/`file2` are the path strings used in the
UID-mismatch message). -/
def validate_merge_data (game_type : String) (data1 data2 : JValue)
    (file1 file2 : String) : MergeCheck :=
  match validate_json_structure data1 game_type with
  | some e => .formatError1 e
  | none =>
  match validate_json_structure data2 game_type with
  | some e => .formatError2 e
  | none =>
  match extract_uid_from_data data1 with
  | none => .noUid1
  | some u1 =>
  if u1 = "" then .noUid1
  else
  match extract_uid_from_data data2 with
  | none => .noUid2
  | some u2 =>
  if u2 = "" then .noUid2
  else if u1 ≠ u2 then .uidMismatch u1 u2 file1 file2
  else
  match dataGetList data1, dataGetList data2 with
  | .list l1, .list l2 =>
    let bad := invalidGachaTypes game_type (l1 ++ l2)
    let joined := String.intercalate ", " bad
    if !bad.isEmpty then
      .gameTypeIncompat s!"发现不兼容的gacha_type: {joined}"
    else
      let n := l1.length + l2.length
      if n > 100000 then .tooManyRecords n
      else if n = 0 then .noRecords
      else .ok u1
  | .list _, _ => .badList2
  | _, _ => .badList1

/-! ## `file_processor.py` : `_normalize_record`, `process_records`,
`save_records_by_type` -/

/-- `FileProcessor._normalize_record(record, uid, default_lang)`: a new
dict with the fixed field order, every value passed through `str()`,
`count` kept only when present in the source record. -/
def normalize_record (record : List (String × JValue)) (uid : String)
    (default_lang : JValue) : List (String × JValue) :=
  [("uid", JValue.str uid),
   ("gacha_type", JValue.str (pyStr ((alookup record "gacha_type").getD (.str "")))),
   ("item_id", JValue.str (pyStr ((alookup record "item_id").getD (.str ""))))]
  ++ (match alookup record "count" with
      | some c => [("count", JValue.str (pyStr c))]
      | none => [])
  ++ [("time", JValue.str (pyStr ((alookup record "time").getD (.str "")))),
      ("name", JValue.str (pyStr ((alookup record "name").getD (.str "")))),
      ("lang", JValue.str (pyStr ((alookup record "lang").getD default_lang))),
      ("item_type", JValue.str (pyStr ((alookup record "item_type").getD (.str "")))),
      ("rank_type", JValue.str (pyStr ((alookup record "rank_type").getD (.str "")))),
      ("id", JValue.str (pyStr ((alookup record "id").getD (.str ""))))]

/-- `records_by_type[target].append(processed_record)`, creating the
bucket on first use (Python dicts keep the key at its first position). -/
def bucketAppend (d : List (String × List (List (String × JValue))))
    (k : String) (v : List (String × JValue)) :
    List (String × List (List (String × JValue))) :=
  match d with
  | [] => [(k, [v])]
  | (k', vs) :: rest =>
    if k' = k then (k', vs ++ [v]) :: rest else (k', vs) :: bucketAppend rest k v

/-- The accumulating state of the `process_records` loop. -/
structure SplitAcc where
  buckets : List (String × List (List (String × JValue)))
  processed : Nat
  skipped : Nat
deriving Repr

/-- One iteration of the `for i, record in enumerate(records)` loop of
`process_records`: skip non-dict records and records without a valid
`gacha_type`; apply the category-merge mapping to a copy; normalize;
bucket under the target category. -/
def processOne (game_type uid : String) (lang : JValue) (acc : SplitAcc)
    (r : JValue) : SplitAcc :=
  match r with
  | .obj fs =>
    match alookup fs "gacha_type" with
    | none => { acc with skipped := acc.skipped + 1 }
    | some gv =>
      let og := pyStr gv
      if og ∈ get_gacha_types game_type then
        let tgt := should_merge_gacha_type game_type og
        let fs' := if tgt ≠ og then dictInsert fs "gacha_type" (.str tgt) else fs
        { acc with
            buckets := bucketAppend acc.buckets tgt (normalize_record fs' uid lang)
            processed := acc.processed + 1 }
      else { acc with skipped := acc.skipped + 1 }
  | _ => { acc with skipped := acc.skipped + 1 }

/-- The whole record loop of `process_records`. -/
def processLoop (game_type uid : String) (lang : JValue) (recs : List JValue)
    (acc : SplitAcc) : SplitAcc :=
  recs.foldl (processOne game_type uid lang) acc

/-- The pure core of `FileProcessor.process_records`: list extraction,
uid/lang extraction from `info`, and the record loop (directory
provisioning, progress callbacks and file writes are I/O and are modelled
separately by `sort_records` / `save_records_by_type`). -/
def process_records_pure (game_type : String) (data : JValue) :
    Except String SplitAcc :=
  match data with
  | .obj fs =>
    match alookup fs "list" with
    | some (.list recs) =>
      let uidLang : String × JValue :=
        match alookup fs "info" with
        | some (.obj infoFs) =>
          (pyStr ((alookup infoFs "uid").getD (.str "")),
           (alookup infoFs "lang").getD (.str "zh-cn"))
        | _ => ("", .str "zh-cn")
      .ok (processLoop game_type uidLang.1 uidLang.2 recs ⟨[], 0, 0⟩)
    | _ => .error "数据中没有有效的记录列表"
  | _ => .error "数据中没有有效的记录列表"

/-- The integer sort key `int(x.get("id", "0"))` of the descending sort
in `save_records_by_type` (defaulting to `0` only to make it total; the
int branch is taken only when every key parses). -/
def intIdKey (r : List (String × JValue)) : Int :=
  (pyIntOfValue ((alookup r "id").getD (.str "0"))).getD 0

/-- Whether `int()` succeeds on a record's id, i.e. whether the record
contributes no `ValueError`/`TypeError` to the numeric sort. -/
def intIdParses (r : List (String × JValue)) : Bool :=
  (pyIntOfValue ((alookup r "id").getD (.str "0"))).isSome

/-- The string sort key `str(x.get("id", ""))` of the fallback sort. -/
def strIdKey (r : List (String × JValue)) : String :=
  pyStr ((alookup r "id").getD (.str ""))

/-- The string sort key `str(x.get("time", ""))` of the time sort. -/
def strTimeKey (r : List (String × JValue)) : String :=
  pyStr ((alookup r "time").getD (.str ""))

/-- The inner `sort_records` of `save_records_by_type`: numeric
descending sort on `id` when the first record has a truthy `id` and all
ids parse as integers, string descending sort on `id` otherwise; time
descending sort when the first record has no truthy `id` but a truthy
`time`; an error (`raise ValueError`) when it has neither.  Python
`sorted(..., reverse=True)` is a stable descending sort, modelled by
`List.insertionSort` with the non-strict descending relation. -/
def sort_records (gacha_type : String) (l : List (List (String × JValue))) :
    Except String (List (List (String × JValue))) :=
  match l with
  | [] => .ok []
  | first :: _ =>
    if ((alookup first "id").map pyTruthy).getD false then
      if l.all intIdParses then
        .ok (l.insertionSort (fun a b => intIdKey b ≤ intIdKey a))
      else
        .ok (l.insertionSort (fun a b => strIdKey b ≤ strIdKey a))
    else if ((alookup first "time").map pyTruthy).getD false then
      .ok (l.insertionSort (fun a b => strTimeKey b ≤ strTimeKey a))
    else
      .error s!"记录缺少必要的排序字段（id或time）: {gacha_type}"

/-! ## `file_repair.py` : `_is_valid_time_format` and `fix_time_format` -/

/-- Split a character list on a separator character (like Python
`str.split(sep)`; used to model `strptime` matching, whose numeric tokens
can never contain the separator). -/
def splitOnChar (sep : Char) : List Char → List (List Char)
  | [] => [[]]
  | c :: rest =>
    if c = sep then [] :: splitOnChar sep rest
    else
      match splitOnChar sep rest with
      | [] => [[c]]
      | t :: ts => (c :: t) :: ts

/-- Numeric value of one digit character. -/
def digitVal (c : Char) : Nat := c.toNat - '0'.toNat

/-- `strptime` `%Y`: exactly four digits. -/
def yearTok : List Char → Option Nat
  | [a, b, c, d] =>
    if a.isDigit && b.isDigit && c.isDigit && d.isDigit then
      some (digitsVal [a, b, c, d])
    else none
  | _ => none

/-- `strptime` `%m`: `1[0-2]|0[1-9]|[1-9]`. -/
def monthTok : List Char → Option Nat
  | [a] => if a.isDigit && a ≠ '0' then some (digitVal a) else none
  | [a, b] =>
    if a.isDigit && b.isDigit then
      let v := digitsVal [a, b]
      if 1 ≤ v && v ≤ 12 then some v else none
    else none
  | _ => none

/-- `strptime` `%d`: `3[01]|[12]\d|0[1-9]|[1-9]`. -/
def dayTok : List Char → Option Nat
  | [a] => if a.isDigit && a ≠ '0' then some (digitVal a) else none
  | [a, b] =>
    if a.isDigit && b.isDigit then
      let v := digitsVal [a, b]
      if 1 ≤ v && v ≤ 31 then some v else none
    else none
  | _ => none

/-- `strptime` `%H`: `2[0-3]|[0-1]\d|\d`. -/
def hourTok : List Char → Option Nat
  | [a] => if a.isDigit then some (digitVal a) else none
  | [a, b] =>
    if a.isDigit && b.isDigit then
      let v := digitsVal [a, b]
      if v ≤ 23 then some v else none
    else none
  | _ => none

/-- `strptime` `%M`: `[0-5]\d|\d`. -/
def minuteTok : List Char → Option Nat
  | [a] => if a.isDigit then some (digitVal a) else none
  | [a, b] =>
    if a.isDigit && b.isDigit then
      let v := digitsVal [a, b]
      if v ≤ 59 then some v else none
    else none
  | _ => none

/-- `strptime` `%S`: `6[0-1]|[0-5]\d|\d` (leap seconds are accepted by
the regex and rejected later by the `datetime` constructor). -/
def secondTok : List Char → Option Nat
  | [a] => if a.isDigit then some (digitVal a) else none
  | [a, b] =>
    if a.isDigit && b.isDigit then
      let v := digitsVal [a, b]
      if v ≤ 61 then some v else none
    else none
  | _ => none

/-- Gregorian leap-year test (as in `datetime`). -/
def isLeapYear (y : Nat) : Bool :=
  (y % 4 = 0 && y % 100 ≠ 0) || y % 400 = 0

/-- Days in a month (as validated by the `datetime` constructor). -/
def daysInMonth (y m : Nat) : Nat :=
  if m = 2 then (if isLeapYear y then 29 else 28)
  else if m = 4 || m = 6 || m = 9 || m = 11 then 30
  else 31

/-- The `datetime` constructor validity check reached through
`strptime` (year at least `MINYEAR = 1`; day within the month). -/
def validDate (y m d : Nat) : Bool :=
  1 ≤ y && d ≤ daysInMonth y m

/-- Match `%Y<sep>%m<sep>%d` against a whole character list. -/
def dateMatch (sep : Char) (l : List Char) : Option (Nat × Nat × Nat) :=
  match splitOnChar sep l with
  | [y, m, d] =>
    match yearTok y, monthTok m, dayTok d with
    | some yv, some mv, some dv => some (yv, mv, dv)
    | _, _, _ => none
  | _ => none

/-- Match `%H:%M:%S` against a whole character list. -/
def timeMatchHMS (l : List Char) : Option (Nat × Nat × Nat) :=
  match splitOnChar ':' l with
  | [h, m, s] =>
    match hourTok h, minuteTok m, secondTok s with
    | some hv, some mv, some sv => some (hv, mv, sv)
    | _, _, _ => none
  | _ => none

/-- Match `%H:%M` against a whole character list. -/
def timeMatchHM (l : List Char) : Option (Nat × Nat × Nat) :=
  match splitOnChar ':' l with
  | [h, m] =>
    match hourTok h, minuteTok m with
    | some hv, some mv => some (hv, mv, 0)
    | _, _ => none
  | _ => none

/-- Cut a date-and-time string at the `strptime` whitespace separator
(`\s+`): the date part is everything before the first whitespace
character, the time part everything after the whitespace run, which must
itself be whitespace-free. -/
def splitDateTime (l : List Char) : Option (List Char × List Char) :=
  let dp := l.takeWhile (fun c => !isPySpace c)
  let rest := l.dropWhile (fun c => !isPySpace c)
  match rest with
  | [] => none
  | _ =>
    let tp := rest.dropWhile isPySpace
    if tp.any isPySpace then none else some (dp, tp)

/-- Match one of the four date-and-time `strptime` formats. -/
def matchDateTimeFmt (sep : Char) (withSec : Bool) (l : List Char) : Bool :=
  match splitDateTime l with
  | none => false
  | some (dp, tp) =>
    match dateMatch sep dp with
    | none => false
    | some (y, m, d) =>
      match (if withSec then timeMatchHMS tp else timeMatchHM tp) with
      | none => false
      | some (_, _, s) => validDate y m d && s ≤ 59

/-- Match one of the two date-only `strptime` formats. -/
def matchDateOnlyFmt (sep : Char) (l : List Char) : Bool :=
  match dateMatch sep l with
  | none => false
  | some (y, m, d) => validDate y m d

/-- `FileRepairer._is_valid_time_format`: the string parses under one of
the six accepted `strptime` formats. -/
def isValidTimeFormat (s : String) : Bool :=
  let l := s.data
  matchDateTimeFmt '-' true l || matchDateTimeFmt '-' false l ||
  matchDateTimeFmt '/' true l || matchDateTimeFmt '/' false l ||
  matchDateOnlyFmt '-' l || matchDateOnlyFmt '/' l

/-- Civil date from days since the Unix epoch (the standard
era-decomposition algorithm computed by `datetime.fromtimestamp`). -/
def civilFromDays (z0 : Int) : Nat × Nat × Nat :=
  let z := z0 + 719468
  let era : Int := Int.ediv z 146097
  let doe : Nat := (z - era * 146097).toNat
  let yoe : Nat := (doe - doe / 1460 + doe / 36524 - doe / 146096) / 365
  let doy : Nat := doe - (365 * yoe + yoe / 4 - yoe / 100)
  let mp : Nat := (5 * doy + 2) / 153
  let d : Nat := doy - (153 * mp + 2) / 5 + 1
  let m : Nat := if mp < 10 then mp + 3 else mp - 9
  let y : Int := era * 400 + (yoe : Int) + (if m ≤ 2 then 1 else 0)
  (y.toNat, m, d)

/-- Left-pad with `0` to the given width (`str.zfill` / `strftime`
zero padding). -/
def zpad (w : Nat) (s : String) : String :=
  (⟨List.replicate (w - s.length) '0'⟩ : String) ++ s

/-- Two-digit zero padding. -/
def fmt2 (n : Nat) : String := zpad 2 (toString n)

/-- `datetime.fromtimestamp(secs).strftime("%Y-%m-%d %H:%M:%S")`, with
the local timezone modelled as a fixed offset `tz` in seconds east of
UTC. -/
def renderEpoch (tz : Int) (secs : Int) : String :=
  let t := secs + tz
  let days := Int.ediv t 86400
  let tod := (Int.emod t 86400).toNat
  let ymd := civilFromDays days
  let y := ymd.1
  let mo := ymd.2.1
  let dy := ymd.2.2
  let hh := tod / 3600
  let mi := tod % 3600 / 60
  let ss := tod % 60
  s!"{zpad 4 (toString y)}-{fmt2 mo}-{fmt2 dy} {fmt2 hh}:{fmt2 mi}:{fmt2 ss}"

/-- `re.sub(r"[/\\.]", "-", time_str)`. -/
def subSeps (l : List Char) : List Char :=
  l.map (fun c => if c = '/' || c = '\\' || c = '.' then '-' else c)

/-- `re.sub(r"[：]", ":", time_str)`. -/
def subFullwidthColon (l : List Char) : List Char :=
  l.map (fun c => if c = '：' then ':' else c)

mutual

/-- `re.sub(r"\s+", " ", time_str)`: collapse whitespace runs to single
spaces. -/
def collapseWs : List Char → List Char
  | [] => []
  | c :: rest =>
    if isPySpace c then ' ' :: collapseWsSkip rest else c :: collapseWs rest

/-- Inside a whitespace run that has already emitted its single space. -/
def collapseWsSkip : List Char → List Char
  | [] => []
  | c :: rest =>
    if isPySpace c then collapseWsSkip rest else c :: collapseWs rest

end

/-- One-or-two digit group `\d{1,2}` with the regex backtracking order:
two digits preferred, then one. -/
def tok12 : List Char → List (List Char × List Char)
  | a :: b :: rest =>
    (if a.isDigit && b.isDigit then [([a, b], rest)] else []) ++
    (if a.isDigit then [([a], b :: rest)] else [])
  | [a] => if a.isDigit then [([a], [])] else []
  | [] => []

/-- Expect one literal character. -/
def expectChar (c : Char) : List Char → Option (List Char)
  | x :: rest => if x = c then some rest else none
  | [] => none

/-- Expect a nonempty whitespace run `\s+` (greedy; the following token
is a digit, so no backtracking into the run is possible). -/
def expectWsRun : List Char → Option (List Char)
  | x :: rest => if isPySpace x then some (rest.dropWhile isPySpace) else none
  | [] => none

/-- Expect `\d{4}`. -/
def year4 : List Char → Option (List Char × List Char)
  | a :: b :: c :: d :: rest =>
    if a.isDigit && b.isDigit && c.isDigit && d.isDigit then
      some ([a, b, c, d], rest)
    else none
  | _ => none

/-- `re.match` of the first repair pattern
`(\d{4})-(\d{1,2})-(\d{1,2})\s+(\d{1,2}):(\d{1,2}):(\d{1,2})` (prefix
match, trailing input ignored), returning the captured groups of the
first match in backtracking order. -/
def p1parse (l : List Char) : Option (List String) :=
  match year4 l with
  | none => none
  | some (y, r1) =>
  match expectChar '-' r1 with
  | none => none
  | some r2 =>
  (tok12 r2).findSome? (fun mo =>
    match expectChar '-' mo.2 with
    | none => none
    | some r4 =>
    (tok12 r4).findSome? (fun dy =>
      match expectWsRun dy.2 with
      | none => none
      | some r6 =>
      (tok12 r6).findSome? (fun hh =>
        match expectChar ':' hh.2 with
        | none => none
        | some r8 =>
        (tok12 r8).findSome? (fun mi =>
          match expectChar ':' mi.2 with
          | none => none
          | some r10 =>
          (tok12 r10).findSome? (fun ss =>
            some [⟨y⟩, ⟨mo.1⟩, ⟨dy.1⟩, ⟨hh.1⟩, ⟨mi.1⟩, ⟨ss.1⟩])))))

/-- `re.match` of the second repair pattern
`(\d{4})-(\d{1,2})-(\d{1,2})\s+(\d{1,2}):(\d{1,2})` (prefix match). -/
def p2parse (l : List Char) : Option (List String) :=
  match year4 l with
  | none => none
  | some (y, r1) =>
  match expectChar '-' r1 with
  | none => none
  | some r2 =>
  (tok12 r2).findSome? (fun mo =>
    match expectChar '-' mo.2 with
    | none => none
    | some r4 =>
    (tok12 r4).findSome? (fun dy =>
      match expectWsRun dy.2 with
      | none => none
      | some r6 =>
      (tok12 r6).findSome? (fun hh =>
        match expectChar ':' hh.2 with
        | none => none
        | some r8 =>
        (tok12 r8).findSome? (fun mi =>
          some [⟨y⟩, ⟨mo.1⟩, ⟨dy.1⟩, ⟨hh.1⟩, ⟨mi.1⟩]))))

/-- `re.match` of the third repair pattern `(\d{4})-(\d{1,2})-(\d{1,2})$`
(anchored at the end). -/
def p3parse (l : List Char) : Option (List String) :=
  match year4 l with
  | none => none
  | some (y, r1) =>
  match expectChar '-' r1 with
  | none => none
  | some r2 =>
  (tok12 r2).findSome? (fun mo =>
    match expectChar '-' mo.2 with
    | none => none
    | some r4 =>
    (tok12 r4).findSome? (fun dy =>
      match dy.2 with
      | [] => some [⟨y⟩, ⟨mo.1⟩, ⟨dy.1⟩]
      | _ => none))

/-- `str.zfill(2)` of a captured group. -/
def zfill2 (s : String) : String := zpad 2 s

/-- The replacement lambda of the first repair pattern. -/
def buildP1 : List String → String
  | [y, mo, dy, hh, mi, ss] =>
    y ++ "-" ++ zfill2 mo ++ "-" ++ zfill2 dy ++ " " ++ zfill2 hh ++ ":" ++
    zfill2 mi ++ ":" ++ zfill2 ss
  | _ => ""

/-- The replacement lambda of the second repair pattern. -/
def buildP2 : List String → String
  | [y, mo, dy, hh, mi] =>
    y ++ "-" ++ zfill2 mo ++ "-" ++ zfill2 dy ++ " " ++ zfill2 hh ++ ":" ++
    zfill2 mi ++ ":00"
  | _ => ""

/-- The replacement lambda of the third repair pattern. -/
def buildP3 : List String → String
  | [y, mo, dy] => y ++ "-" ++ zfill2 mo ++ "-" ++ zfill2 dy ++ " 00:00:00"
  | _ => ""

/-- The `for pattern, replacement in patterns` loop of
`fix_time_format`: each pattern that matches produces a candidate that is
returned only if it now passes `_is_valid_time_format`. -/
def tryPatterns (l : List Char) : Option String :=
  match (p1parse l).map buildP1 with
  | some f =>
    if isValidTimeFormat f then some f
    else
      match (p2parse l).map buildP2 with
      | some f2 =>
        if isValidTimeFormat f2 then some f2
        else
          match (p3parse l).map buildP3 with
          | some f3 => if isValidTimeFormat f3 then some f3 else none
          | none => none
      | none =>
        match (p3parse l).map buildP3 with
        | some f3 => if isValidTimeFormat f3 then some f3 else none
        | none => none
  | none =>
    match (p2parse l).map buildP2 with
    | some f2 =>
      if isValidTimeFormat f2 then some f2
      else
        match (p3parse l).map buildP3 with
        | some f3 => if isValidTimeFormat f3 then some f3 else none
        | none => none
    | none =>
      match (p3parse l).map buildP3 with
      | some f3 => if isValidTimeFormat f3 then some f3 else none
      | none => none

/-- `FileRepairer.fix_time_format(time_str)` on string input, with the
local timezone of `datetime.fromtimestamp` modelled as the fixed offset
`tz` (seconds east of UTC). -/
def fix_time_format (tz : Int) (time_str : String) : String × Bool :=
  if !pyTruthy (.str time_str) then ("2023-01-01 00:00:00", false)
  else
    let t := pyStrip time_str
    if isValidTimeFormat t then (t, true)
    else if pyIsdigit t && t.length = 10 then
      (renderEpoch tz (digitsVal t.data : Int), true)
    else if pyIsdigit t && t.length = 13 then
      (renderEpoch tz ((digitsVal t.data : Int) / 1000), true)
    else
      match tryPatterns (collapseWs (subFullwidthColon (subSeps t.data))) with
      | some f => (f, true)
      | none => ("2023-01-01 00:00:00", false)

/-! ## Heap-threaded model of the `process_records` loop (for the
no-mutation claim)

Python records are objects on a heap; the caller's document holds
references to them.  `processOneH` re-runs one iteration of the
`process_records` loop with the heap made explicit: the store is a list
of objects, the document's `list` is a list of indices into it, and the
only allocation (`record = record.copy()` before the category rewrite)
appends a fresh object instead of writing through the reference. -/

/-- One heap-threaded iteration of the record loop of
`process_records`. -/
def processOneH (game_type uid : String) (lang : JValue)
    (store : List JValue) (p : Nat) (acc : SplitAcc) :
    List JValue × SplitAcc :=
  match store.getD p .null with
  | .obj fs =>
    match alookup fs "gacha_type" with
    | none => (store, { acc with skipped := acc.skipped + 1 })
    | some gv =>
      let og := pyStr gv
      if og ∈ get_gacha_types game_type then
        let tgt := should_merge_gacha_type game_type og
        if tgt ≠ og then
          let fs' := dictInsert fs "gacha_type" (.str tgt)
          (store ++ [JValue.obj fs'],
           { acc with
               buckets := bucketAppend acc.buckets tgt (normalize_record fs' uid lang)
               processed := acc.processed + 1 })
        else
          (store,
           { acc with
               buckets := bucketAppend acc.buckets tgt (normalize_record fs uid lang)
               processed := acc.processed + 1 })
      else (store, { acc with skipped := acc.skipped + 1 })
  | _ => (store, { acc with skipped := acc.skipped + 1 })

/-- The heap-threaded record loop of `process_records` over the
document's list of record references. -/
def processLoopH (game_type uid : String) (lang : JValue) :
    List Nat → List JValue → SplitAcc → List JValue × SplitAcc
  | [], store, acc => (store, acc)
  | p :: ps, store, acc =>
    let st := processOneH game_type uid lang store p acc
    processLoopH game_type uid lang ps st.1 st.2

/-! ## Module-level names (for the fault-propagation claim)

A Python `from utils import (names)` statement resolves every requested
name against the names defined by `utils.py`; a missing name raises an
`ImportError` when the module is first loaded, before any entry point
can return a structured outcome. -/

/-- The functions defined at module level by `utils.py`. -/
def utilsModuleDefs : List String :=
  ["validate_json_structure", "create_output_directory",
   "format_progress_message", "extract_uid_from_data"]

/-- The names `file_merger.py` line 14 imports from `utils`. -/
def fileMergerUtilsImports : List String :=
  ["validate_json_structure", "create_output_directory",
   "extract_uid_from_data", "compare_records_by_id", "sanitize_filename",
   "format_progress_message"]

/-- The names `file_repair.py` line 16 imports from `utils`. -/
def fileRepairUtilsImports : List String :=
  ["validate_json_structure", "create_output_directory",
   "extract_uid_from_data", "validate_record_fields", "sanitize_filename",
   "format_progress_message"]

/-- `FileProcessor.__init__` / `FileMerger.__init__` /
`FileRepairer.__init__`: store the configuration, or `raise ValueError`
when the game type has no configured gacha types. -/
def fileProcessorInit (game_type : String) : Except String (List String) :=
  let gacha_types := get_gacha_types game_type
  if gacha_types.isEmpty then .error s!"不支持的游戏类型: {game_type}"
  else .ok gacha_types

/-! ## Dictionary lemmas -/

theorem dictKeys_dictInsert {α : Type} (d : List (String × α)) (k : String) (v : α) :
    dictKeys (dictInsert d k v) =
      if k ∈ dictKeys d then dictKeys d else dictKeys d ++ [k] := by
  induction d with
  | nil => simp [dictInsert, dictKeys]
  | cons p rest ih =>
    obtain ⟨k', v'⟩ := p
    by_cases hk : k' = k
    · subst hk
      simp [dictInsert, dictKeys]
    · by_cases hm : k ∈ dictKeys rest
      · simp only [dictKeys] at hm ih ⊢
        simp [dictInsert, hk, ih, hm, Ne.symm hk]
      · simp only [dictKeys] at hm ih ⊢
        simp [dictInsert, hk, ih, hm, Ne.symm hk]

theorem length_eq_dictKeys_length {α : Type} (d : List (String × α)) :
    d.length = (dictKeys d).length := by
  simp [dictKeys]

theorem nodup_dictInsert {α : Type} (d : List (String × α)) (k : String) (v : α)
    (h : (dictKeys d).Nodup) : (dictKeys (dictInsert d k v)).Nodup := by
  rw [dictKeys_dictInsert]
  by_cases hm : k ∈ dictKeys d
  · simpa [hm]
  · simp [hm, h, List.nodup_append]

theorem toFinset_dictKeys_dictInsert {α : Type} (d : List (String × α)) (k : String) (v : α) :
    (dictKeys (dictInsert d k v)).toFinset = insert k (dictKeys d).toFinset := by
  rw [dictKeys_dictInsert]
  by_cases hm : k ∈ dictKeys d
  · simp only [if_pos hm]
    exact (Finset.insert_eq_self.mpr (List.mem_toFinset.mpr hm)).symm
  · simp [hm, Finset.union_comm, Finset.insert_eq]

theorem alookup_dictInsert_self {α : Type} (d : List (String × α)) (k : String) (v : α) :
    alookup (dictInsert d k v) k = some v := by
  induction d with
  | nil => simp [dictInsert, alookup]
  | cons p rest ih =>
    obtain ⟨k', v'⟩ := p
    by_cases hk : k' = k
    · subst hk; simp [dictInsert, alookup]
    · simp [dictInsert, alookup, hk, ih]

theorem alookup_dictInsert_ne {α : Type} (d : List (String × α)) (k k' : String) (v : α)
    (h : k' ≠ k) : alookup (dictInsert d k v) k' = alookup d k' := by
  induction d with
  | nil => simp [dictInsert, alookup, Ne.symm h]
  | cons p rest ih =>
    obtain ⟨k0, v0⟩ := p
    by_cases hk : k0 = k
    · subst hk
      simp [dictInsert, alookup, Ne.symm h]
    · by_cases hk' : k0 = k'
      · simp [dictInsert, alookup, hk, hk', h]
      · simp [dictInsert, alookup, hk, hk', ih]

theorem mem_dictKeys_of_alookup {α : Type} (d : List (String × α)) (k : String) (v : α)
    (h : alookup d k = some v) : k ∈ dictKeys d := by
  induction d with
  | nil => simp [alookup] at h
  | cons p rest ih =>
    obtain ⟨k0, v0⟩ := p
    by_cases hk : k0 = k
    · subst hk
      show k0 ∈ k0 :: dictKeys rest
      exact List.mem_cons_self _ _
    · simp only [alookup, if_neg hk] at h
      show k ∈ k0 :: dictKeys rest
      exact List.mem_cons_of_mem _ (ih h)

/-! ## Lemmas about the merge folds -/

theorem foldl_mergeStep1_filter (recs : List JValue)
    (d : List (String × List (String × JValue))) :
    (recs.filter (fun r => (recKey r).isSome)).foldl mergeStep1 d =
      recs.foldl mergeStep1 d := by
  induction recs generalizing d with
  | nil => rfl
  | cons r rest ih =>
    cases h : recKey r with
    | none => simp [List.filter_cons, h, mergeStep1, ih]
    | some kfs => simp [List.filter_cons, h, mergeStep1, ih]

theorem foldl_mergeStep2_filter (recs : List JValue)
    (st : List (String × List (String × JValue)) × Nat) :
    (recs.filter (fun r => (recKey r).isSome)).foldl mergeStep2 st =
      recs.foldl mergeStep2 st := by
  induction recs generalizing st with
  | nil => rfl
  | cons r rest ih =>
    cases h : recKey r with
    | none => simp [List.filter_cons, h, mergeStep2, ih]
    | some kfs => simp [List.filter_cons, h, mergeStep2, ih]

/-- C10 (amended): in `merge_records`, a record that is not a dict, or
whose `id` stringifies to the empty string (in particular a missing
`id`), contributes neither to the merged output nor to the duplicate
counter: the merge dict, the output list and the duplicate count are
those of the inputs with all such records removed.  (A record whose `id`
is JSON `null` is NOT skipped: `str(None)` is the non-empty string
`"None"`, so it is merged under the id `"None"`.) -/
theorem merge_records_drops_keyless (records1 records2 : List JValue) :
    mergedDictCount records1 records2 =
      mergedDictCount (records1.filter (fun r => (recKey r).isSome))
        (records2.filter (fun r => (recKey r).isSome))
    ∧ (merge_records records1 records2).1 =
        (merge_records (records1.filter (fun r => (recKey r).isSome))
          (records2.filter (fun r => (recKey r).isSome))).1
    ∧ (merge_records records1 records2).2.duplicate_records =
        (merge_records (records1.filter (fun r => (recKey r).isSome))
          (records2.filter (fun r => (recKey r).isSome))).2.duplicate_records := by
  have hd : mergedDictCount records1 records2 =
      mergedDictCount (records1.filter (fun r => (recKey r).isSome))
        (records2.filter (fun r => (recKey r).isSome)) := by
    unfold mergedDictCount
    rw [foldl_mergeStep1_filter, foldl_mergeStep2_filter]
  refine ⟨hd, ?_, ?_⟩ <;> simp [merge_records, hd]

/-- C10 (counterexample to the claim as stated): a dict record whose
`id` is JSON `null` is not dropped — `str(None) = "None"` is truthy, so
the record appears in the merged output under the id `"None"`. -/
theorem merge_records_keeps_null_id :
    (merge_records [] [JValue.obj [("id", JValue.null)]]).1 =
      [[("id", JValue.null)]]
    ∧ (merge_records [] [JValue.obj [("id", JValue.null)]]).2.total_merged_records = 1 := by
  constructor <;> rfl

/-- Whether a JSON value is a string. -/
def isStrVal : JValue → Bool
  | .str _ => true
  | _ => false

/-- C6: `_normalize_record` emits exactly the fields `uid, gacha_type,
item_id, [count when present in the source], time, name, lang,
item_type, rank_type, id` in that order, every value a string, and
normalizing an already-normalized record with the same `uid` and
`default_lang` is the identity. -/
theorem normalize_record_order_values_idem (record : List (String × JValue))
    (uid : String) (default_lang : JValue) :
    dictKeys (normalize_record record uid default_lang) =
      (if (alookup record "count").isSome then
        ["uid", "gacha_type", "item_id", "count", "time", "name", "lang",
         "item_type", "rank_type", "id"]
       else
        ["uid", "gacha_type", "item_id", "time", "name", "lang",
         "item_type", "rank_type", "id"])
    ∧ (normalize_record record uid default_lang).all (fun p => isStrVal p.2) = true
    ∧ normalize_record (normalize_record record uid default_lang) uid default_lang =
        normalize_record record uid default_lang := by
  cases h : alookup record "count" with
  | none =>
    refine ⟨?_, ?_, ?_⟩
    · simp [normalize_record, h, dictKeys]
    · simp only [normalize_record, h]
      rfl
    · simp only [normalize_record, h]
      rfl
  | some c =>
    refine ⟨?_, ?_, ?_⟩
    · simp [normalize_record, h, dictKeys]
    · simp only [normalize_record, h]
      rfl
    · simp only [normalize_record, h]
      rfl

/-- C9: the engine can raise past its entry-point boundary.  The
`from utils import (names)` statements of `file_merger.py` (line 14) and
`file_repair.py` (line 16) request names `utils.py` does not define, so
loading the merge or repair module raises `ImportError` before any
entry point can return a structured outcome; and the processor
constructor raises `ValueError` for an unsupported game type instead of
returning a structured error. -/
theorem engine_raises_at_boundary :
    ("compare_records_by_id" ∈ fileMergerUtilsImports
      ∧ "compare_records_by_id" ∉ utilsModuleDefs)
    ∧ ("sanitize_filename" ∈ fileMergerUtilsImports
      ∧ "sanitize_filename" ∉ utilsModuleDefs)
    ∧ ("validate_record_fields" ∈ fileRepairUtilsImports
      ∧ "validate_record_fields" ∉ utilsModuleDefs)
    ∧ fileProcessorInit "fruits" = .error "不支持的游戏类型: fruits" := by
  refine ⟨⟨?_, ?_⟩, ⟨?_, ?_⟩, ⟨?_, ?_⟩, ?_⟩ <;> first | decide | rfl

/-- One heap step of the record loop only ever appends to the store. -/
theorem processOneH_store_extends (game_type uid : String) (lang : JValue)
    (store : List JValue) (p : Nat) (acc : SplitAcc) :
    ∃ fresh, (processOneH game_type uid lang store p acc).1 = store ++ fresh := by
  unfold processOneH
  repeat' (first | split | dsimp only)
  all_goals first
    | exact ⟨[], (List.append_nil store).symm⟩
    | exact ⟨_, rfl⟩

/-- C8: the record loop of `process_records` never mutates the
caller-supplied document.  In the heap-threaded model every object the
document references before the call is untouched afterwards: the final
store extends the initial store (category remapping writes only to a
freshly allocated `record.copy()`, normalization builds a new record),
so the prefix holding the document, its info dict, its list and all its
records is returned unchanged. -/
theorem process_records_no_mutation (game_type uid : String) (lang : JValue)
    (ptrs : List Nat) (store : List JValue) (acc : SplitAcc) :
    (∃ fresh, (processLoopH game_type uid lang ptrs store acc).1 = store ++ fresh)
    ∧ (processLoopH game_type uid lang ptrs store acc).1.take store.length = store := by
  have main : ∀ (ps : List Nat) (st : List JValue) (a : SplitAcc),
      ∃ fresh, (processLoopH game_type uid lang ps st a).1 = st ++ fresh := by
    intro ps
    induction ps with
    | nil => intro st a; exact ⟨[], by simp [processLoopH]⟩
    | cons p ps ih =>
      intro st a
      obtain ⟨e, he⟩ := processOneH_store_extends game_type uid lang st p a
      obtain ⟨f, hf⟩ := ih (processOneH game_type uid lang st p a).1
        (processOneH game_type uid lang st p a).2
      refine ⟨e ++ f, ?_⟩
      simp only [processLoopH]
      rw [hf, he, List.append_assoc]
  obtain ⟨fresh, hfresh⟩ := main ptrs store acc
  refine ⟨⟨fresh, hfresh⟩, ?_⟩
  rw [hfresh]
  exact List.take_left store fresh

/-! ## C2 : the UID-mismatch gate -/

/-- C2: for two parsed documents whose `info.uid` are present, non-empty
strings that differ, the pre-merge validation never reports success;
and whenever both documents pass the structure validation (every check
preceding the UID comparison), the reported failure is exactly the
UID-mismatch error carrying both UID values and both file
identifiers. -/
theorem uid_mismatch_gate (game_type : String)
    (fs1 fs2 i1 i2 : List (String × JValue)) (u1 u2 file1 file2 : String)
    (hinfo1 : alookup fs1 "info" = some (.obj i1))
    (huid1 : alookup i1 "uid" = some (.str u1)) (hne1 : u1 ≠ "")
    (hinfo2 : alookup fs2 "info" = some (.obj i2))
    (huid2 : alookup i2 "uid" = some (.str u2)) (hne2 : u2 ≠ "")
    (hne : u1 ≠ u2) :
    (∀ u, validate_merge_data game_type (.obj fs1) (.obj fs2) file1 file2 ≠ .ok u)
    ∧ (validate_json_structure (.obj fs1) game_type = none →
       validate_json_structure (.obj fs2) game_type = none →
       validate_merge_data game_type (.obj fs1) (.obj fs2) file1 file2 =
         .uidMismatch u1 u2 file1 file2) := by
  have he1 : extract_uid_from_data (.obj fs1) = some u1 := by
    simp [extract_uid_from_data, hinfo1, huid1, pyTruthy, pyStr,
      String.isEmpty_iff, hne1]
  have he2 : extract_uid_from_data (.obj fs2) = some u2 := by
    simp [extract_uid_from_data, hinfo2, huid2, pyTruthy, pyStr,
      String.isEmpty_iff, hne2]
  constructor
  · intro u
    cases h1 : validate_json_structure (.obj fs1) game_type with
    | some e => simp [validate_merge_data, h1]
    | none =>
      cases h2 : validate_json_structure (.obj fs2) game_type with
      | some e => simp [validate_merge_data, h1, h2]
      | none =>
        simp [validate_merge_data, h1, h2, he1, he2, hne1, hne2, hne]
  · intro h1 h2
    simp [validate_merge_data, h1, h2, he1, he2, hne1, hne2, hne]

/-- Two structurally valid documents with different string UIDs, used to
instantiate the UID-mismatch gate. -/
def mismatchDoc1 : JValue :=
  .obj [("info", .obj [("uid", .str "100000001"), ("lang", .str "zh-cn"),
          ("export_time", .str "2024-01-01 00:00:00"),
          ("uigf_version", .str "v3.0")]),
        ("list", .list [])]

/-- Companion document with a different UID. -/
def mismatchDoc2 : JValue :=
  .obj [("info", .obj [("uid", .str "100000002"), ("lang", .str "zh-cn"),
          ("export_time", .str "2024-01-01 00:00:00"),
          ("uigf_version", .str "v3.0")]),
        ("list", .list [])]

/-- Witness for C2 at concrete documents. -/
theorem uid_mismatch_gate_witness :
    validate_merge_data "genshin" mismatchDoc1 mismatchDoc2 "a.json" "b.json" =
      .uidMismatch "100000001" "100000002" "a.json" "b.json"
    ∧ ∀ u, validate_merge_data "genshin" mismatchDoc1 mismatchDoc2 "a.json" "b.json" ≠
        .ok u := by
  have h := uid_mismatch_gate "genshin"
    [("info", .obj [("uid", .str "100000001"), ("lang", .str "zh-cn"),
        ("export_time", .str "2024-01-01 00:00:00"),
        ("uigf_version", .str "v3.0")]),
     ("list", .list [])]
    [("info", .obj [("uid", .str "100000002"), ("lang", .str "zh-cn"),
        ("export_time", .str "2024-01-01 00:00:00"),
        ("uigf_version", .str "v3.0")]),
     ("list", .list [])]
    [("uid", .str "100000001"), ("lang", .str "zh-cn"),
     ("export_time", .str "2024-01-01 00:00:00"), ("uigf_version", .str "v3.0")]
    [("uid", .str "100000002"), ("lang", .str "zh-cn"),
     ("export_time", .str "2024-01-01 00:00:00"), ("uigf_version", .str "v3.0")]
    "100000001" "100000002" "a.json" "b.json"
    rfl rfl (by decide) rfl rfl (by decide) (by decide)
  exact ⟨h.2 rfl rfl, h.1⟩

/-! ## C4 : the validator samples only the first five records -/

theorem checkRecordsLoop_none_iff (game_type : String) (i : Nat) (l : List JValue) :
    checkRecordsLoop game_type i l = none ↔
      ∀ r ∈ l, recordViolation game_type r = none := by
  induction l generalizing i with
  | nil => simp [checkRecordsLoop]
  | cons r rest ih =>
    cases h : recordViolation game_type r with
    | some v => simp [checkRecordsLoop, h]
    | none => simp [checkRecordsLoop, h, ih]

theorem checkRecordsLoop_first_violation (game_type : String) (pre : List JValue)
    (i : Nat) (r : JValue) (post : List JValue) (v : RecViolation)
    (hpre : ∀ r' ∈ pre, recordViolation game_type r' = none)
    (hv : recordViolation game_type r = some v) :
    checkRecordsLoop game_type i (pre ++ r :: post) =
      some (renderViolation game_type (i + pre.length) v) := by
  induction pre generalizing i with
  | nil => simp [checkRecordsLoop, hv]
  | cons p pre' ih =>
    have hp : recordViolation game_type p = none := hpre p (by simp)
    have hpre' : ∀ r' ∈ pre', recordViolation game_type r' = none := by
      intro r' hr'
      exact hpre r' (by simp [hr'])
    simp only [List.cons_append, checkRecordsLoop, hp]
    show checkRecordsLoop game_type (i + 1) (pre' ++ r :: post) =
      some (renderViolation game_type (i + (p :: pre').length) v)
    rw [ih (i + 1) hpre']
    congr 2
    simp [List.length_cons]
    omega

/-- C4: once a document has passed all header checks (it is an object,
`info` is a dict passing the required-field and version-field checks,
`list` is an array), `validate_json_structure` is exactly the sampling
loop over the first `min(5, n)` records: it accepts iff every sampled
record is free of the listed violations (object shape, required fields,
non-empty `gacha_type`/`time`/`id`, valid `gacha_type`, `time` length at
least 10) — so a violation only in records after the fifth is never
rejected — and when a sampled record violates, the result is the error
message of the first violating record. -/
theorem validator_samples_first_five (game_type : String)
    (fs infoFs : List (String × JValue)) (recs : List JValue)
    (hinfo : alookup fs "info" = some (.obj infoFs))
    (hlist : alookup fs "list" = some (.list recs))
    (hifields : checkInfoFields infoFs infoRequiredFields = none)
    (hver : checkVersionField game_type infoFs = none) :
    validate_json_structure (.obj fs) game_type =
      checkRecordsLoop game_type 0 (recs.take 5)
    ∧ (validate_json_structure (.obj fs) game_type = none ↔
        ∀ r ∈ recs.take 5, recordViolation game_type r = none)
    ∧ ∀ (pre : List JValue) (r : JValue) (post : List JValue) (v : RecViolation),
        recs.take 5 = pre ++ r :: post →
        (∀ r' ∈ pre, recordViolation game_type r' = none) →
        recordViolation game_type r = some v →
        validate_json_structure (.obj fs) game_type =
          some (renderViolation game_type pre.length v) := by
  have hbase : validate_json_structure (.obj fs) game_type =
      checkRecordsLoop game_type 0 (recs.take 5) := by
    simp [validate_json_structure, hinfo, hlist, hifields, hver]
  refine ⟨hbase, ?_, ?_⟩
  · rw [hbase]
    exact checkRecordsLoop_none_iff game_type 0 (recs.take 5)
  · intro pre r post v htake hpre hv
    rw [hbase, htake]
    have := checkRecordsLoop_first_violation game_type pre 0 r post v hpre hv
    simpa using this

/-- A fully valid genshin record used by the validator witnesses. -/
def wellFormedRec : JValue :=
  .obj [("gacha_type", .str "301"), ("time", .str "2024-01-01 00:00:00"),
        ("name", .str "x"), ("item_type", .str "y"), ("rank_type", .str "5"),
        ("id", .str "1")]

/-- A document whose first five records are valid and whose sixth record
is not even an object. -/
def validatorDocA : JValue :=
  .obj [("info", .obj [("uid", .str "100000001"), ("lang", .str "zh-cn"),
          ("export_time", .str "2024-01-01 00:00:00"),
          ("uigf_version", .str "v3.0")]),
        ("list", .list [wellFormedRec, wellFormedRec, wellFormedRec,
          wellFormedRec, wellFormedRec, .int 7])]

/-- A document whose second record is not an object. -/
def validatorDocB : JValue :=
  .obj [("info", .obj [("uid", .str "100000001"), ("lang", .str "zh-cn"),
          ("export_time", .str "2024-01-01 00:00:00"),
          ("uigf_version", .str "v3.0")]),
        ("list", .list [wellFormedRec, .int 7])]

/-- Witness for C4: the non-object sixth record of `validatorDocA` is
never sampled, so validation succeeds; the non-object second record of
`validatorDocB` is reported as the first violation. -/
theorem validator_samples_first_five_witness :
    validate_json_structure validatorDocA "genshin" = none
    ∧ validate_json_structure validatorDocB "genshin" =
        some (renderViolation "genshin" 1 .notObject) := by
  constructor
  · exact (validator_samples_first_five "genshin"
      [("info", .obj [("uid", .str "100000001"), ("lang", .str "zh-cn"),
          ("export_time", .str "2024-01-01 00:00:00"),
          ("uigf_version", .str "v3.0")]),
       ("list", .list [wellFormedRec, wellFormedRec, wellFormedRec,
          wellFormedRec, wellFormedRec, .int 7])]
      [("uid", .str "100000001"), ("lang", .str "zh-cn"),
       ("export_time", .str "2024-01-01 00:00:00"),
       ("uigf_version", .str "v3.0")]
      [wellFormedRec, wellFormedRec, wellFormedRec, wellFormedRec,
       wellFormedRec, .int 7]
      rfl rfl rfl rfl).2.1.mpr (by decide)
  · exact (validator_samples_first_five "genshin"
      [("info", .obj [("uid", .str "100000001"), ("lang", .str "zh-cn"),
          ("export_time", .str "2024-01-01 00:00:00"),
          ("uigf_version", .str "v3.0")]),
       ("list", .list [wellFormedRec, .int 7])]
      [("uid", .str "100000001"), ("lang", .str "zh-cn"),
       ("export_time", .str "2024-01-01 00:00:00"),
       ("uigf_version", .str "v3.0")]
      [wellFormedRec, .int 7]
      rfl rfl rfl rfl).2.2 [wellFormedRec] (.int 7) [] .notObject rfl
      (by decide) (by decide)

/-! ## C1 : the merge dedup invariant -/

theorem idsOf_cons (r : JValue) (rest : List JValue) :
    idsOf (r :: rest) =
      match recKey r with
      | none => idsOf rest
      | some kfs => kfs.1 :: idsOf rest := by
  cases h : recKey r <;> simp [idsOf, List.filterMap_cons, h]

theorem mem_dictKeys_dictInsert {α : Type} (d : List (String × α)) (k x : String)
    (v : α) : x ∈ dictKeys (dictInsert d k v) ↔ x = k ∨ x ∈ dictKeys d := by
  rw [dictKeys_dictInsert]
  by_cases hm : k ∈ dictKeys d
  · simp only [if_pos hm]
    constructor
    · exact Or.inr
    · rintro (rfl | h)
      · exact hm
      · exact h
  · simp [hm, or_comm]

theorem mem_keys_foldl_mergeStep1 (recs : List JValue) (x : String) :
    ∀ d, x ∈ dictKeys (recs.foldl mergeStep1 d) ↔
      x ∈ dictKeys d ∨ x ∈ idsOf recs := by
  induction recs with
  | nil => intro d; simp [idsOf]
  | cons r rest ih =>
    intro d
    cases h : recKey r with
    | none =>
      have hstep : mergeStep1 d r = d := by simp [mergeStep1, h]
      simp only [List.foldl_cons, hstep, ih, idsOf_cons, h]
    | some kfs =>
      obtain ⟨k, fs⟩ := kfs
      have hstep : mergeStep1 d r = dictInsert d k fs := by simp [mergeStep1, h]
      simp only [List.foldl_cons, hstep, ih, idsOf_cons, h,
        mem_dictKeys_dictInsert, List.mem_cons]
      tauto

theorem mem_keys_foldl_mergeStep2 (recs : List JValue) (x : String) :
    ∀ d c, x ∈ dictKeys ((recs.foldl mergeStep2 (d, c)).1) ↔
      x ∈ dictKeys d ∨ x ∈ idsOf recs := by
  induction recs with
  | nil => intro d c; simp [idsOf]
  | cons r rest ih =>
    intro d c
    cases h : recKey r with
    | none =>
      have hstep : mergeStep2 (d, c) r = (d, c) := by simp [mergeStep2, h]
      simp only [List.foldl_cons, hstep, ih, idsOf_cons, h]
    | some kfs =>
      obtain ⟨k, fs⟩ := kfs
      by_cases hm : k ∈ dictKeys d
      · have hstep : mergeStep2 (d, c) r = (d, c + 1) := by
          simp [mergeStep2, h, hm]
        simp only [List.foldl_cons, hstep, ih, idsOf_cons, h, List.mem_cons]
        constructor
        · tauto
        · rintro (hx | (rfl | hx))
          · exact Or.inl hx
          · exact Or.inl hm
          · exact Or.inr hx
      · have hstep : mergeStep2 (d, c) r = (dictInsert d k fs, c) := by
          simp [mergeStep2, h, hm]
        simp only [List.foldl_cons, hstep, ih, idsOf_cons, h,
          mem_dictKeys_dictInsert, List.mem_cons]
        tauto

theorem nodup_keys_foldl_mergeStep1 (recs : List JValue) :
    ∀ d, (dictKeys d).Nodup → (dictKeys (recs.foldl mergeStep1 d)).Nodup := by
  induction recs with
  | nil => intro d h; exact h
  | cons r rest ih =>
    intro d h
    cases hk : recKey r with
    | none =>
      have hstep : mergeStep1 d r = d := by simp [mergeStep1, hk]
      simpa only [List.foldl_cons, hstep] using ih d h
    | some kfs =>
      obtain ⟨k, fs⟩ := kfs
      have hstep : mergeStep1 d r = dictInsert d k fs := by simp [mergeStep1, hk]
      simpa only [List.foldl_cons, hstep] using
        ih (dictInsert d k fs) (nodup_dictInsert d k fs h)

theorem nodup_keys_foldl_mergeStep2 (recs : List JValue) :
    ∀ d c, (dictKeys d).Nodup → (dictKeys ((recs.foldl mergeStep2 (d, c)).1)).Nodup := by
  induction recs with
  | nil => intro d c h; exact h
  | cons r rest ih =>
    intro d c h
    cases hk : recKey r with
    | none =>
      have hstep : mergeStep2 (d, c) r = (d, c) := by simp [mergeStep2, hk]
      simpa only [List.foldl_cons, hstep] using ih d c h
    | some kfs =>
      obtain ⟨k, fs⟩ := kfs
      by_cases hm : k ∈ dictKeys d
      · have hstep : mergeStep2 (d, c) r = (d, c + 1) := by simp [mergeStep2, hk, hm]
        simpa only [List.foldl_cons, hstep] using ih d (c + 1) h
      · have hstep : mergeStep2 (d, c) r = (dictInsert d k fs, c) := by
          simp [mergeStep2, hk, hm]
        simpa only [List.foldl_cons, hstep] using
          ih (dictInsert d k fs) c (nodup_dictInsert d k fs h)

theorem foldl_mergeStep1_lookup_absent (recs : List JValue) (x : String)
    (h : x ∉ idsOf recs) :
    ∀ d, alookup (recs.foldl mergeStep1 d) x = alookup d x := by
  induction recs with
  | nil => intro d; rfl
  | cons r rest ih =>
    intro d
    cases hk : recKey r with
    | none =>
      have hstep : mergeStep1 d r = d := by simp [mergeStep1, hk]
      have hrest : x ∉ idsOf rest := by
        intro hc
        exact h (by simp only [idsOf_cons, hk]; exact hc)
      simp only [List.foldl_cons, hstep, ih hrest]
    | some kfs =>
      obtain ⟨k, fs⟩ := kfs
      have hxk : x ≠ k := by
        intro hc
        exact h (by simp only [idsOf_cons, hk]; simp [hc])
      have hrest : x ∉ idsOf rest := by
        intro hc
        exact h (by simp only [idsOf_cons, hk]; simp [hc])
      have hstep : mergeStep1 d r = dictInsert d k fs := by simp [mergeStep1, hk]
      simp only [List.foldl_cons, hstep, ih hrest,
        alookup_dictInsert_ne d k x fs hxk]

theorem foldl_mergeStep1_lookup_unique (recs : List JValue) (x : String)
    (fsA : List (String × JValue)) (hnd : (idsOf recs).Nodup)
    (hmem : JValue.obj fsA ∈ recs) (hid : recIdOf fsA = some x) :
    ∀ d, alookup (recs.foldl mergeStep1 d) x = some fsA := by
  induction recs with
  | nil => cases hmem
  | cons r rest ih =>
    intro d
    rcases List.mem_cons.mp hmem with hr | hr
    · subst hr
      have hk : recKey (JValue.obj fsA) = some (x, fsA) := by
        simp [recKey, hid]
      have hstep : mergeStep1 d (JValue.obj fsA) = dictInsert d x fsA := by
        simp [mergeStep1, hk]
      have hrest : x ∉ idsOf rest := by
        have := hnd
        simp only [idsOf_cons, hk] at this
        exact (List.nodup_cons.mp this).1
      simp only [List.foldl_cons, hstep,
        foldl_mergeStep1_lookup_absent rest x hrest,
        alookup_dictInsert_self]
    · have hndrest : (idsOf rest).Nodup := by
        cases hk : recKey r with
        | none => simpa only [idsOf_cons, hk] using hnd
        | some kfs =>
          have := hnd
          simp only [idsOf_cons, hk] at this
          exact (List.nodup_cons.mp this).2
      simp only [List.foldl_cons]
      exact ih hndrest hr _

theorem foldl_mergeStep2_lookup (recs : List JValue) (x : String)
    (v : List (String × JValue)) :
    ∀ d c, alookup d x = some v →
      alookup ((recs.foldl mergeStep2 (d, c)).1) x = some v := by
  induction recs with
  | nil => intro d c h; exact h
  | cons r rest ih =>
    intro d c h
    cases hk : recKey r with
    | none =>
      have hstep : mergeStep2 (d, c) r = (d, c) := by simp [mergeStep2, hk]
      simp only [List.foldl_cons, hstep]
      exact ih d c h
    | some kfs =>
      obtain ⟨k, fs⟩ := kfs
      by_cases hm : k ∈ dictKeys d
      · have hstep : mergeStep2 (d, c) r = (d, c + 1) := by simp [mergeStep2, hk, hm]
        simp only [List.foldl_cons, hstep]
        exact ih d (c + 1) h
      · have hstep : mergeStep2 (d, c) r = (dictInsert d k fs, c) := by
          simp [mergeStep2, hk, hm]
        have hxk : x ≠ k := by
          intro hc
          subst hc
          exact hm (mem_dictKeys_of_alookup d x v h)
        simp only [List.foldl_cons, hstep]
        exact ih _ c (by rw [alookup_dictInsert_ne d k x fs hxk]; exact h)

theorem foldl_mergeStep2_count (recs : List JValue) (hnd : (idsOf recs).Nodup) :
    ∀ d c, (recs.foldl mergeStep2 (d, c)).2 =
      c + ((idsOf recs).filter (fun k => decide (k ∈ dictKeys d))).length := by
  induction recs with
  | nil => intro d c; simp [idsOf]
  | cons r rest ih =>
    intro d c
    cases hk : recKey r with
    | none =>
      have hstep : mergeStep2 (d, c) r = (d, c) := by simp [mergeStep2, hk]
      have hndrest : (idsOf rest).Nodup := by
        simpa only [idsOf_cons, hk] using hnd
      simp only [List.foldl_cons, hstep, ih hndrest, idsOf_cons, hk]
    | some kfs =>
      obtain ⟨k, fs⟩ := kfs
      have hnd' := hnd
      simp only [idsOf_cons, hk] at hnd'
      obtain ⟨hknotin, hndrest⟩ := List.nodup_cons.mp hnd'
      by_cases hm : k ∈ dictKeys d
      · have hstep : mergeStep2 (d, c) r = (d, c + 1) := by simp [mergeStep2, hk, hm]
        have hcond : decide (k ∈ dictKeys d) = true := decide_eq_true hm
        simp only [List.foldl_cons, hstep]
        rw [ih hndrest]
        simp [idsOf_cons, hk, List.filter_cons, hcond]
        try omega
      · have hstep : mergeStep2 (d, c) r = (dictInsert d k fs, c) := by
          simp [mergeStep2, hk, hm]
        have hfilter :
            (idsOf rest).filter (fun k' => decide (k' ∈ dictKeys (dictInsert d k fs))) =
              (idsOf rest).filter (fun k' => decide (k' ∈ dictKeys d)) := by
          apply List.filter_congr
          intro x hx
          have hxk : x ≠ k := by
            intro hc; subst hc; exact hknotin hx
          simp [mem_dictKeys_dictInsert, hxk]
        have hcond : decide (k ∈ dictKeys d) = false := decide_eq_false hm
        simp only [List.foldl_cons, hstep]
        rw [ih hndrest]
        simp [idsOf_cons, hk, List.filter_cons, hcond, hfilter]

/-- C1: when every input record is a dict with a non-empty string `id`,
`merge_records` keeps exactly one record per distinct id, so the merged
record count is `|ids(A) ∪ ids(B)|`; and when ids are additionally
unique within each list, the duplicate counter is incremented exactly
once per id common to both lists (it equals `|ids(A) ∩ ids(B)|`) and an
id present in both lists keeps the first list's record in the merge
dict. -/
theorem merge_records_dedup_invariant (records1 records2 : List JValue)
    (h1 : ∀ r ∈ records1, ∃ fs s, r = JValue.obj fs
      ∧ alookup fs "id" = some (.str s) ∧ s ≠ "")
    (h2 : ∀ r ∈ records2, ∃ fs s, r = JValue.obj fs
      ∧ alookup fs "id" = some (.str s) ∧ s ≠ "") :
    (merge_records records1 records2).1.length =
      ((idsOf records1).toFinset ∪ (idsOf records2).toFinset).card
    ∧ ((idsOf records1).Nodup → (idsOf records2).Nodup →
        ((merge_records records1 records2).2.duplicate_records =
            ((idsOf records1).toFinset ∩ (idsOf records2).toFinset).card
         ∧ ∀ (x : String) (fsA : List (String × JValue)),
             JValue.obj fsA ∈ records1 → recIdOf fsA = some x →
             x ∈ (idsOf records2).toFinset →
             alookup (mergedDict records1 records2) x = some fsA)) := by
  have hkeys : ∀ x, x ∈ dictKeys (mergedDict records1 records2) ↔
      x ∈ idsOf records1 ∨ x ∈ idsOf records2 := by
    intro x
    unfold mergedDict mergedDictCount
    rw [mem_keys_foldl_mergeStep2, mem_keys_foldl_mergeStep1]
    simp [dictKeys]
  have hnodup : (dictKeys (mergedDict records1 records2)).Nodup := by
    unfold mergedDict mergedDictCount
    exact nodup_keys_foldl_mergeStep2 records2 _ 0
      (nodup_keys_foldl_mergeStep1 records1 [] (by simp [dictKeys]))
  have hsetkeys : (dictKeys (mergedDict records1 records2)).toFinset =
      (idsOf records1).toFinset ∪ (idsOf records2).toFinset := by
    ext x
    simp [hkeys x, List.mem_toFinset]
  constructor
  · have hlen : (merge_records records1 records2).1.length =
        (mergedDict records1 records2).length := by
      simp [merge_records, mergedDict]
    rw [hlen, length_eq_dictKeys_length, ← List.toFinset_card_of_nodup hnodup,
      hsetkeys]
  · intro hnd1 hnd2
    constructor
    · have hdup : (merge_records records1 records2).2.duplicate_records =
          (mergedDictCount records1 records2).2 := by
        simp [merge_records]
      rw [hdup]
      unfold mergedDictCount
      rw [foldl_mergeStep2_count records2 hnd2 _ 0]
      have hkeys1 : ∀ k, k ∈ dictKeys (records1.foldl mergeStep1 []) ↔
          k ∈ idsOf records1 := by
        intro k
        rw [mem_keys_foldl_mergeStep1]
        simp [dictKeys]
      have hfilter : (idsOf records2).filter
            (fun k => decide (k ∈ dictKeys (records1.foldl mergeStep1 []))) =
          (idsOf records2).filter (fun k => decide (k ∈ idsOf records1)) := by
        apply List.filter_congr
        intro x _
        simp [hkeys1 x]
      rw [hfilter]
      have hfnodup : ((idsOf records2).filter
          (fun k => decide (k ∈ idsOf records1))).Nodup := hnd2.filter _
      rw [Nat.zero_add, ← List.toFinset_card_of_nodup hfnodup,
        List.toFinset_filter]
      have : ((idsOf records2).toFinset.filter
            (fun k => decide (k ∈ idsOf records1))) =
          (idsOf records1).toFinset ∩ (idsOf records2).toFinset := by
        ext x
        simp [List.mem_toFinset, and_comm]
      rw [this]
    · intro x fsA hmem hid hx2
      unfold mergedDict mergedDictCount
      apply foldl_mergeStep2_lookup
      exact foldl_mergeStep1_lookup_unique records1 x fsA hnd1 hmem hid []

/-- First merge-witness record list: ids `1`, `2`. -/
def mergeWitness1 : List JValue :=
  [JValue.obj [("id", .str "1"), ("name", .str "a")],
   JValue.obj [("id", .str "2")]]

/-- Second merge-witness record list: ids `2`, `3`. -/
def mergeWitness2 : List JValue :=
  [JValue.obj [("id", .str "2"), ("name", .str "b")],
   JValue.obj [("id", .str "3")]]

/-- Witness for C1 at concrete record lists with one overlapping id. -/
theorem merge_records_dedup_invariant_witness :
    (merge_records mergeWitness1 mergeWitness2).1.length =
      ((idsOf mergeWitness1).toFinset ∪ (idsOf mergeWitness2).toFinset).card
    ∧ (merge_records mergeWitness1 mergeWitness2).2.duplicate_records =
        ((idsOf mergeWitness1).toFinset ∩ (idsOf mergeWitness2).toFinset).card
    ∧ alookup (mergedDict mergeWitness1 mergeWitness2) "2" =
        some [("id", JValue.str "2")] := by
  have h := merge_records_dedup_invariant mergeWitness1 mergeWitness2
    (by
      intro r hr
      simp only [mergeWitness1, List.mem_cons, List.not_mem_nil, or_false] at hr
      rcases hr with rfl | rfl
      · exact ⟨_, "1", rfl, rfl, by decide⟩
      · exact ⟨_, "2", rfl, rfl, by decide⟩)
    (by
      intro r hr
      simp only [mergeWitness2, List.mem_cons, List.not_mem_nil, or_false] at hr
      rcases hr with rfl | rfl
      · exact ⟨_, "2", rfl, rfl, by decide⟩
      · exact ⟨_, "3", rfl, rfl, by decide⟩)
  have hcommon := h.2 (by decide) (by decide)
  refine ⟨h.1, hcommon.1, ?_⟩
  exact hcommon.2 "2" [("id", JValue.str "2")]
    (List.mem_cons_of_mem _ (List.mem_cons_self _ _)) rfl (by decide)

/-! ## C3 : sorting of split category files -/

theorem pyParseInt_ne_empty (s : String) (h : (pyParseInt s).isSome) : s ≠ "" := by
  intro hc
  subst hc
  simp [pyParseInt, pyStripList] at h

/-- C3 (amended): for a non-empty category bucket in which every
record's `id` is a string that parses as an integer, `sort_records`
takes the numeric branch and returns the records in non-increasing order
of numeric `id`; the order is strictly decreasing whenever the numeric
ids are pairwise distinct. -/
theorem sort_records_descending (gacha_type : String)
    (l : List (List (String × JValue))) (hne : l ≠ [])
    (hall : ∀ r ∈ l, ∃ s, alookup r "id" = some (.str s) ∧ (pyParseInt s).isSome) :
    sort_records gacha_type l =
      .ok (l.insertionSort (fun a b => intIdKey b ≤ intIdKey a))
    ∧ (l.insertionSort (fun a b => intIdKey b ≤ intIdKey a)).Pairwise
        (fun a b => intIdKey b ≤ intIdKey a)
    ∧ ((l.map intIdKey).Nodup →
        (l.insertionSort (fun a b => intIdKey b ≤ intIdKey a)).Pairwise
          (fun a b => intIdKey b < intIdKey a)) := by
  haveI htot : IsTotal (List (String × JValue)) (fun a b => intIdKey b ≤ intIdKey a) :=
    ⟨fun a b => le_total (intIdKey b) (intIdKey a)⟩
  haveI htrans : IsTrans (List (String × JValue)) (fun a b => intIdKey b ≤ intIdKey a) :=
    ⟨fun _ _ _ hab hbc => le_trans hbc hab⟩
  have hparseAll : l.all intIdParses = true := by
    rw [List.all_eq_true]
    intro r hr
    obtain ⟨s, hs, hp⟩ := hall r hr
    simp [intIdParses, hs, pyIntOfValue, hp]
  have hsorted := List.sorted_insertionSort
    (fun a b => intIdKey b ≤ intIdKey a) l
  have hok : sort_records gacha_type l =
      .ok (l.insertionSort (fun a b => intIdKey b ≤ intIdKey a)) := by
    match l, hne with
    | first :: rest, _ =>
      obtain ⟨s, hs, hp⟩ := hall first (List.mem_cons_self _ _)
      have hsne : s ≠ "" := pyParseInt_ne_empty s hp
      have hie : s.isEmpty = false :=
        Bool.eq_false_iff.mpr (fun h => hsne ((String.isEmpty_iff s).mp h))
      have htruthy : ((alookup first "id").map pyTruthy).getD false = true := by
        simp [hs, pyTruthy, hie]
      simp [sort_records, htruthy, hparseAll]
  refine ⟨hok, hsorted, ?_⟩
  intro hnd
  have hperm :=
    (List.perm_insertionSort (fun a b => intIdKey b ≤ intIdKey a) l).map intIdKey
  have hnd' : ((l.insertionSort (fun a b => intIdKey b ≤ intIdKey a)).map intIdKey).Nodup :=
    hperm.symm.nodup hnd
  have hpne : (l.insertionSort (fun a b => intIdKey b ≤ intIdKey a)).Pairwise
      (fun a b => intIdKey a ≠ intIdKey b) :=
    List.pairwise_map.mp hnd'
  have := hsorted.and hpne
  exact this.imp (fun h => lt_of_le_of_ne h.1 (Ne.symm h.2))

/-- A split-input record with `gacha_type` `301` and id `7`, present
twice in the duplicate-id document. -/
def dupRec : JValue :=
  .obj [("gacha_type", .str "301"), ("id", .str "7")]

/-- A document whose list contains the same record twice. -/
def dupDoc : JValue :=
  .obj [("info", .obj [("uid", .str "123"), ("lang", .str "zh-cn")]),
        ("list", .list [dupRec, dupRec])]

/-- The normalization of `dupRec` under uid `123`, lang `zh-cn`. -/
def dupNormalized : List (String × JValue) :=
  [("uid", .str "123"), ("gacha_type", .str "301"), ("item_id", .str ""),
   ("time", .str ""), ("name", .str ""), ("lang", .str "zh-cn"),
   ("item_type", .str ""), ("rank_type", .str ""), ("id", .str "7")]

/-- C3 (counterexample to the claim as stated): split never
deduplicates, so a document containing the same record twice produces a
bucket whose two records have equal numeric ids; the written sequence is
then NOT strictly descending (`7 > 7` fails), even though every id
parses as an integer. -/
theorem sort_records_not_strictly_descending :
    process_records_pure "genshin" dupDoc =
      .ok ⟨[("301", [dupNormalized, dupNormalized])], 2, 0⟩
    ∧ sort_records "301" [dupNormalized, dupNormalized] =
        .ok [dupNormalized, dupNormalized]
    ∧ ¬ ([dupNormalized, dupNormalized].Pairwise
          (fun a b => intIdKey b < intIdKey a)) := by
  refine ⟨rfl, rfl, ?_⟩
  intro h
  exact absurd (List.rel_of_pairwise_cons h (List.mem_cons_self _ _))
    (lt_irrefl _)

/-- Sort-witness record with id `2`. -/
def sortRecA : List (String × JValue) := [("id", JValue.str "2")]

/-- Sort-witness record with id `1`. -/
def sortRecB : List (String × JValue) := [("id", JValue.str "1")]

/-- Witness for C3 (amended) at a concrete two-record bucket with
distinct numeric ids. -/
theorem sort_records_descending_witness :
    sort_records "301" [sortRecA, sortRecB] =
      .ok (([sortRecA, sortRecB]).insertionSort
        (fun a b => intIdKey b ≤ intIdKey a))
    ∧ (([sortRecA, sortRecB]).insertionSort
        (fun a b => intIdKey b ≤ intIdKey a)).Pairwise
        (fun a b => intIdKey b < intIdKey a) := by
  have h := sort_records_descending "301" [sortRecA, sortRecB]
    (List.cons_ne_nil _ _)
    (by
      intro r hr
      simp only [List.mem_cons, List.not_mem_nil, or_false] at hr
      rcases hr with rfl | rfl
      · exact ⟨"2", rfl, by decide⟩
      · exact ⟨"1", rfl, by decide⟩)
  exact ⟨h.1, h.2.2 (by decide)⟩

/-! ## C7 : category-merge remapping in split -/

/-- The bucket stored under key `k`, or the empty list. -/
def getBucket (d : List (String × List (List (String × JValue)))) (k : String) :
    List (List (String × JValue)) :=
  (alookup d k).getD []

theorem alookup_bucketAppend (d : List (String × List (List (String × JValue))))
    (k k' : String) (v : List (String × JValue)) :
    alookup (bucketAppend d k v) k' =
      if k' = k then some ((alookup d k).getD [] ++ [v]) else alookup d k' := by
  induction d with
  | nil =>
    by_cases h : k' = k
    · subst h; simp [bucketAppend, alookup]
    · simp [bucketAppend, alookup, h, Ne.symm h]
  | cons p rest ih =>
    obtain ⟨k0, vs⟩ := p
    by_cases h0 : k0 = k
    · subst h0
      by_cases h1 : k0 = k'
      · subst h1; simp [bucketAppend, alookup]
      · simp [bucketAppend, alookup, h1, Ne.symm h1]
    · by_cases h1 : k0 = k'
      · subst h1
        have hne : ¬k0 = k := h0
        simp [bucketAppend, alookup, hne, Ne.symm hne]
      · simp [bucketAppend, alookup, h0, h1, ih]

theorem getBucket_bucketAppend (d : List (String × List (List (String × JValue))))
    (k k' : String) (v : List (String × JValue)) :
    getBucket (bucketAppend d k v) k' =
      if k' = k then getBucket d k ++ [v] else getBucket d k' := by
  unfold getBucket
  rw [alookup_bucketAppend]
  by_cases h : k' = k
  · simp [h]
  · simp [h]

/-- The records `process_records` routes to bucket `t`, in input order:
each dict record whose raw `gacha_type` is valid and whose merge target
is `t`, category-rewritten (on a copy) when remapped and normalized. -/
def bucketExpected (game_type uid : String) (lang : JValue) (t : String)
    (recs : List JValue) : List (List (String × JValue)) :=
  recs.filterMap (fun r =>
    match r with
    | .obj fs =>
      match alookup fs "gacha_type" with
      | some gv =>
        let og := pyStr gv
        if og ∈ get_gacha_types game_type then
          let tgt := should_merge_gacha_type game_type og
          if tgt = t then
            some (normalize_record
              (if tgt ≠ og then dictInsert fs "gacha_type" (.str tgt) else fs)
              uid lang)
          else none
        else none
      | none => none
    | _ => none)

theorem processLoop_getBucket (game_type uid : String) (lang : JValue)
    (recs : List JValue) :
    ∀ (acc : SplitAcc) (t : String),
      getBucket (processLoop game_type uid lang recs acc).buckets t =
        getBucket acc.buckets t ++ bucketExpected game_type uid lang t recs := by
  induction recs with
  | nil => intro acc t; simp [processLoop, bucketExpected]
  | cons r rest ih =>
    intro acc t
    have hloop : processLoop game_type uid lang (r :: rest) acc =
        processLoop game_type uid lang rest (processOne game_type uid lang acc r) :=
      rfl
    rw [hloop, ih]
    match r with
    | .obj fs =>
      cases hg : alookup fs "gacha_type" with
      | none =>
        simp [processOne, hg, bucketExpected, List.filterMap_cons]
      | some gv =>
        by_cases hmem : pyStr gv ∈ get_gacha_types game_type
        · have hstep : (processOne game_type uid lang acc (JValue.obj fs)).buckets =
              bucketAppend acc.buckets (should_merge_gacha_type game_type (pyStr gv))
                (normalize_record
                  (if should_merge_gacha_type game_type (pyStr gv) ≠ pyStr gv then
                    dictInsert fs "gacha_type"
                      (.str (should_merge_gacha_type game_type (pyStr gv)))
                   else fs) uid lang) := by
            simp [processOne, hg, hmem]
          have hexp : bucketExpected game_type uid lang t (JValue.obj fs :: rest) =
              (if should_merge_gacha_type game_type (pyStr gv) = t then
                (normalize_record
                  (if should_merge_gacha_type game_type (pyStr gv) ≠ pyStr gv then
                    dictInsert fs "gacha_type"
                      (.str (should_merge_gacha_type game_type (pyStr gv)))
                   else fs) uid lang) :: bucketExpected game_type uid lang t rest
               else bucketExpected game_type uid lang t rest) := by
            by_cases heq : should_merge_gacha_type game_type (pyStr gv) = t
            · simp [bucketExpected, List.filterMap_cons, hg, hmem, heq]
            · simp [bucketExpected, List.filterMap_cons, hg, hmem, heq]
          rw [hstep, hexp, getBucket_bucketAppend]
          by_cases heq : should_merge_gacha_type game_type (pyStr gv) = t
          · simp [heq]
          · simp [heq, Ne.symm heq]
        · simp [processOne, hg, hmem, bucketExpected, List.filterMap_cons]
    | .null => simp [processOne, bucketExpected, List.filterMap_cons]
    | .bool b => simp [processOne, bucketExpected, List.filterMap_cons]
    | .int n => simp [processOne, bucketExpected, List.filterMap_cons]
    | .str s => simp [processOne, bucketExpected, List.filterMap_cons]
    | .list xs => simp [processOne, bucketExpected, List.filterMap_cons]

/-- Scenario record with `gacha_type` `301` and id `2`. -/
def scenarioRec301 : JValue :=
  .obj [("gacha_type", .str "301"), ("time", .str "2024-01-01 00:00:02"),
        ("name", .str "剑"), ("item_type", .str "武器"),
        ("rank_type", .str "3"), ("id", .str "2")]

/-- Scenario record with `gacha_type` `400` and id `1`. -/
def scenarioRec400 : JValue :=
  .obj [("gacha_type", .str "400"), ("time", .str "2024-01-01 00:00:01"),
        ("name", .str "弓"), ("item_type", .str "武器"),
        ("rank_type", .str "4"), ("id", .str "1")]

/-- The scenario document of the specification: a genshin export with
one `301` record and one `400` record. -/
def scenarioDoc : JValue :=
  .obj [("info", .obj [("uid", .str "123"), ("lang", .str "zh-cn"),
          ("export_time", .str "2024-01-01 00:00:00"),
          ("uigf_version", .str "v3.0")]),
        ("list", .list [scenarioRec301, scenarioRec400])]

/-- Normalization of the scenario `301` record. -/
def scenarioNorm301 : List (String × JValue) :=
  [("uid", .str "123"), ("gacha_type", .str "301"), ("item_id", .str ""),
   ("time", .str "2024-01-01 00:00:02"), ("name", .str "剑"),
   ("lang", .str "zh-cn"), ("item_type", .str "武器"),
   ("rank_type", .str "3"), ("id", .str "2")]

/-- Normalization of the scenario `400` record after the `400 → 301`
category rewrite. -/
def scenarioNorm400 : List (String × JValue) :=
  [("uid", .str "123"), ("gacha_type", .str "301"), ("item_id", .str ""),
   ("time", .str "2024-01-01 00:00:01"), ("name", .str "弓"),
   ("lang", .str "zh-cn"), ("item_type", .str "武器"),
   ("rank_type", .str "4"), ("id", .str "1")]

/-- C7: a record whose valid `gacha_type` has a category-merge mapping
is rewritten (on a copy) to the target category before normalization and
lands in the target category's bucket; in particular the specification
scenario — a genshin document with one `301` and one `400` record —
splits into a single `301` bucket holding both normalized records (the
`400` one rewritten to `301`), with no `400` bucket, and the bucket is
already in descending id order. -/
theorem split_remaps_merged_categories (game_type uid : String) (lang : JValue)
    (recs : List JValue) (r : JValue) (fs : List (String × JValue)) (gv : JValue)
    (hr : r ∈ recs) (hobj : r = .obj fs)
    (hg : alookup fs "gacha_type" = some gv)
    (hvalid : pyStr gv ∈ get_gacha_types game_type)
    (hmap : should_merge_gacha_type game_type (pyStr gv) ≠ pyStr gv) :
    normalize_record (dictInsert fs "gacha_type"
        (.str (should_merge_gacha_type game_type (pyStr gv)))) uid lang
      ∈ getBucket (processLoop game_type uid lang recs ⟨[], 0, 0⟩).buckets
          (should_merge_gacha_type game_type (pyStr gv))
    ∧ process_records_pure "genshin" scenarioDoc =
        .ok ⟨[("301", [scenarioNorm301, scenarioNorm400])], 2, 0⟩
    ∧ sort_records "301" [scenarioNorm301, scenarioNorm400] =
        .ok [scenarioNorm301, scenarioNorm400] := by
  refine ⟨?_, rfl, rfl⟩
  rw [processLoop_getBucket]
  have hinit : getBucket (SplitAcc.mk [] 0 0).buckets
      (should_merge_gacha_type game_type (pyStr gv)) = [] := rfl
  rw [hinit, List.nil_append]
  apply List.mem_filterMap.mpr
  refine ⟨r, hr, ?_⟩
  subst hobj
  simp [bucketExpected, hg, hvalid, hmap]

/-- Witness for C7: the scenario `400` record is bucketed, rewritten and
normalized, under `301`. -/
theorem split_remaps_merged_categories_witness :
    (scenarioNorm400 : List (String × JValue))
      ∈ getBucket (processLoop "genshin" "123" (.str "zh-cn")
          [scenarioRec301, scenarioRec400] ⟨[], 0, 0⟩).buckets "301"
    ∧ process_records_pure "genshin" scenarioDoc =
        .ok ⟨[("301", [scenarioNorm301, scenarioNorm400])], 2, 0⟩ := by
  have h := split_remaps_merged_categories "genshin" "123" (.str "zh-cn")
    [scenarioRec301, scenarioRec400] scenarioRec400
    [("gacha_type", .str "400"), ("time", .str "2024-01-01 00:00:01"),
     ("name", .str "弓"), ("item_type", .str "武器"),
     ("rank_type", .str "4"), ("id", .str "1")]
    (.str "400")
    (List.mem_cons_of_mem _ (List.mem_cons_self _ _)) rfl rfl
    (by decide) (by decide)
  exact ⟨h.1, h.2.1⟩

/-! ## C5 : the time-format repair -/

/-- Join token lists with a separator character (left inverse of
`splitOnChar`). -/
def joinSepChar (sep : Char) : List (List Char) → List Char
  | [] => []
  | [t] => t
  | t :: ts => t ++ sep :: joinSepChar sep ts

theorem splitOnChar_ne_nil (sep : Char) (l : List Char) :
    splitOnChar sep l ≠ [] := by
  induction l with
  | nil => simp [splitOnChar]
  | cons c rest ih =>
    by_cases h : c = sep
    · simp [splitOnChar, h]
    · simp only [splitOnChar, if_neg h]
      cases hs : splitOnChar sep rest with
      | nil => exact absurd hs ih
      | cons t ts => simp

theorem joinSepChar_splitOnChar (sep : Char) (l : List Char) :
    joinSepChar sep (splitOnChar sep l) = l := by
  induction l with
  | nil => rfl
  | cons c rest ih =>
    by_cases h : c = sep
    · cases hs : splitOnChar sep rest with
      | nil => exact absurd hs (splitOnChar_ne_nil sep rest)
      | cons t ts =>
        rw [hs] at ih
        simp only [splitOnChar, if_pos h, hs]
        show ([] : List Char) ++ sep :: joinSepChar sep (t :: ts) = c :: rest
        rw [ih, h]
        rfl
    · simp only [splitOnChar, if_neg h]
      cases hs : splitOnChar sep rest with
      | nil => exact absurd hs (splitOnChar_ne_nil sep rest)
      | cons t ts =>
        rw [hs] at ih
        cases ts with
        | nil =>
          show (c :: t) = c :: rest
          simp only [joinSepChar] at ih
          rw [ih]
        | cons t2 ts2 =>
          show (c :: t) ++ sep :: joinSepChar sep (t2 :: ts2) = c :: rest
          simp only [joinSepChar] at ih
          simp only [List.cons_append]
          rw [ih]

theorem splitOnChar_no_sep (sep : Char) (l : List Char) (h : sep ∉ l) :
    splitOnChar sep l = [l] := by
  induction l with
  | nil => rfl
  | cons c rest ih =>
    have hc : ¬c = sep := by
      intro hcc
      exact h (by simp [hcc])
    have hrest : sep ∉ rest := fun hr => h (List.mem_cons_of_mem _ hr)
    simp only [splitOnChar, if_neg hc, ih hrest]

theorem isPySpace_eq_false_of_isDigit (c : Char) (h : c.isDigit = true) :
    isPySpace c = false := by
  cases hs : isPySpace c
  · rfl
  · exfalso
    simp only [isPySpace, Bool.or_eq_true, decide_eq_true_eq] at hs
    rcases hs with ((((rfl | rfl) | rfl) | rfl) | rfl) | rfl <;>
      exact absurd h (by decide)

theorem yearTok_shape (t : List Char) (y : Nat) (h : yearTok t = some y) :
    t ≠ [] ∧ ∀ c ∈ t, c.isDigit = true := by
  match t, h with
  | [a, b, c, d], h =>
    simp only [yearTok] at h
    by_cases hd : a.isDigit && b.isDigit && c.isDigit && d.isDigit
    · simp only [Bool.and_eq_true] at hd
      refine ⟨by simp, ?_⟩
      intro x hx
      simp only [List.mem_cons, List.not_mem_nil, or_false] at hx
      rcases hx with rfl | rfl | rfl | rfl
      · exact hd.1.1.1
      · exact hd.1.1.2
      · exact hd.1.2
      · exact hd.2
    · rw [if_neg hd] at h
      cases h

theorem dayTok_shape (t : List Char) (v : Nat) (h : dayTok t = some v) :
    t ≠ [] ∧ ∀ c ∈ t, c.isDigit = true := by
  match t, h with
  | [a], h =>
    simp only [dayTok] at h
    by_cases hd : a.isDigit && a ≠ '0'
    · simp only [Bool.and_eq_true] at hd
      refine ⟨by simp, ?_⟩
      intro x hx
      simp only [List.mem_cons, List.not_mem_nil, or_false] at hx
      rcases hx with rfl
      exact hd.1
    · rw [if_neg hd] at h
      cases h
  | [a, b], h =>
    simp only [dayTok] at h
    by_cases hd : a.isDigit && b.isDigit
    · simp only [Bool.and_eq_true] at hd
      refine ⟨by simp, ?_⟩
      intro x hx
      simp only [List.mem_cons, List.not_mem_nil, or_false] at hx
      rcases hx with rfl | rfl
      · exact hd.1
      · exact hd.2
    · rw [if_neg hd] at h
      cases h

theorem minuteTok_shape (t : List Char) (v : Nat) (h : minuteTok t = some v) :
    t ≠ [] ∧ ∀ c ∈ t, c.isDigit = true := by
  match t, h with
  | [a], h =>
    simp only [minuteTok] at h
    by_cases hd : a.isDigit
    · exact ⟨by simp, by intro x hx; simp at hx; subst hx; exact hd⟩
    · rw [if_neg hd] at h
      cases h
  | [a, b], h =>
    simp only [minuteTok] at h
    by_cases hd : a.isDigit && b.isDigit
    · simp only [Bool.and_eq_true] at hd
      refine ⟨by simp, ?_⟩
      intro x hx
      simp only [List.mem_cons, List.not_mem_nil, or_false] at hx
      rcases hx with rfl | rfl
      · exact hd.1
      · exact hd.2
    · rw [if_neg hd] at h
      cases h

theorem secondTok_shape (t : List Char) (v : Nat) (h : secondTok t = some v) :
    t ≠ [] ∧ ∀ c ∈ t, c.isDigit = true := by
  match t, h with
  | [a], h =>
    simp only [secondTok] at h
    by_cases hd : a.isDigit
    · exact ⟨by simp, by intro x hx; simp at hx; subst hx; exact hd⟩
    · rw [if_neg hd] at h
      cases h
  | [a, b], h =>
    simp only [secondTok] at h
    by_cases hd : a.isDigit && b.isDigit
    · simp only [Bool.and_eq_true] at hd
      refine ⟨by simp, ?_⟩
      intro x hx
      simp only [List.mem_cons, List.not_mem_nil, or_false] at hx
      rcases hx with rfl | rfl
      · exact hd.1
      · exact hd.2
    · rw [if_neg hd] at h
      cases h

theorem pyStripList_eq_self (l : List Char)
    (hh : ∀ c ∈ l.head?, isPySpace c = false)
    (hl : ∀ c ∈ l.getLast?, isPySpace c = false) :
    pyStripList l = l := by
  unfold pyStripList
  have h1 : l.dropWhile isPySpace = l := by
    cases l with
    | nil => rfl
    | cons a as =>
      have := hh a rfl
      simp [List.dropWhile_cons, this]
  rw [h1]
  have h2 : l.reverse.dropWhile isPySpace = l.reverse := by
    cases hrev : l.reverse with
    | nil => rfl
    | cons a as =>
      have ha : l.getLast? = some a := by
        rw [← List.head?_reverse, hrev]
        rfl
      have := hl a ha
      simp [List.dropWhile_cons, this]
  rw [h2, List.reverse_reverse]

theorem getLast?_append_right {α : Type} (l1 l2 : List α) (h : l2 ≠ []) :
    (l1 ++ l2).getLast? = l2.getLast? := by
  rw [List.getLast?_append]
  cases hl : l2.getLast? with
  | some x => rfl
  | none =>
    exfalso
    have := (List.getLast?_isSome (l := l2)).mpr h
    rw [hl] at this
    cases this

theorem dateMatch_shape (sep : Char) (l : List Char) (y m d : Nat)
    (h : dateMatch sep l = some (y, m, d)) :
    (∃ c, l.head? = some c ∧ c.isDigit = true)
    ∧ (∃ c, l.getLast? = some c ∧ c.isDigit = true) := by
  unfold dateMatch at h
  cases hs : splitOnChar sep l with
  | nil => rw [hs] at h; cases h
  | cons ty ts1 =>
    cases ts1 with
    | nil => rw [hs] at h; cases h
    | cons tm ts2 =>
      cases ts2 with
      | nil => rw [hs] at h; cases h
      | cons td ts3 =>
        cases ts3 with
        | cons t4 ts4 => rw [hs] at h; cases h
        | nil =>
          rw [hs] at h
          dsimp only at h
          cases hy : yearTok ty with
          | none => rw [hy] at h; cases h
          | some yv =>
            cases hm : monthTok tm with
            | none => rw [hy, hm] at h; cases h
            | some mv =>
              cases hd : dayTok td with
              | none => rw [hy, hm, hd] at h; cases h
              | some dv =>
                have hjoin : l = ty ++ sep :: (tm ++ sep :: td) := by
                  have := joinSepChar_splitOnChar sep l
                  rw [hs] at this
                  exact this.symm
                obtain ⟨hyne, hydig⟩ := yearTok_shape ty yv hy
                obtain ⟨hdne, hddig⟩ := dayTok_shape td dv hd
                constructor
                · cases ty with
                  | nil => exact absurd rfl hyne
                  | cons c cs =>
                    refine ⟨c, ?_, hydig c (by simp)⟩
                    rw [hjoin]
                    rfl
                · have hlast : l.getLast? = td.getLast? := by
                    rw [hjoin]
                    have : ty ++ sep :: (tm ++ sep :: td) =
                        (ty ++ sep :: tm ++ [sep]) ++ td := by
                      simp
                    rw [this]
                    exact getLast?_append_right _ td hdne
                  cases htd : td.getLast? with
                  | none =>
                    exfalso
                    have := (List.getLast?_isSome (l := td)).mpr hdne
                    rw [htd] at this
                    cases this
                  | some c =>
                    refine ⟨c, by rw [hlast, htd], ?_⟩
                    have hcmem : c ∈ td := List.mem_of_mem_getLast? htd
                    exact hddig c hcmem

theorem timeMatchHMS_shape (l : List Char) (hv mv sv : Nat)
    (h : timeMatchHMS l = some (hv, mv, sv)) :
    l ≠ [] ∧ ∃ c, l.getLast? = some c ∧ c.isDigit = true := by
  unfold timeMatchHMS at h
  cases hs : splitOnChar ':' l with
  | nil => rw [hs] at h; cases h
  | cons th ts1 =>
    cases ts1 with
    | nil => rw [hs] at h; cases h
    | cons tm ts2 =>
      cases ts2 with
      | nil => rw [hs] at h; cases h
      | cons ts ts3 =>
        cases ts3 with
        | cons t4 ts4 => rw [hs] at h; cases h
        | nil =>
          rw [hs] at h
          dsimp only at h
          cases hh : hourTok th with
          | none => rw [hh] at h; cases h
          | some hv0 =>
            cases hm : minuteTok tm with
            | none => rw [hh, hm] at h; cases h
            | some mv0 =>
              cases hsec : secondTok ts with
              | none => rw [hh, hm, hsec] at h; cases h
              | some sv0 =>
                have hjoin : l = th ++ ':' :: (tm ++ ':' :: ts) := by
                  have := joinSepChar_splitOnChar ':' l
                  rw [hs] at this
                  exact this.symm
                obtain ⟨hsne, hsdig⟩ := secondTok_shape ts sv0 hsec
                have hlnil : l ≠ [] := by
                  rw [hjoin]
                  intro hc
                  cases th <;> cases hc
                have hlast : l.getLast? = ts.getLast? := by
                  rw [hjoin]
                  have : th ++ ':' :: (tm ++ ':' :: ts) =
                      (th ++ ':' :: tm ++ [':']) ++ ts := by
                    simp
                  rw [this]
                  exact getLast?_append_right _ ts hsne
                cases hts : ts.getLast? with
                | none =>
                  exfalso
                  have := (List.getLast?_isSome (l := ts)).mpr hsne
                  rw [hts] at this
                  cases this
                | some c =>
                  exact ⟨hlnil, c, by rw [hlast, hts],
                    hsdig c (List.mem_of_mem_getLast? hts)⟩

theorem timeMatchHM_shape (l : List Char) (hv mv sv : Nat)
    (h : timeMatchHM l = some (hv, mv, sv)) :
    l ≠ [] ∧ ∃ c, l.getLast? = some c ∧ c.isDigit = true := by
  unfold timeMatchHM at h
  cases hs : splitOnChar ':' l with
  | nil => rw [hs] at h; cases h
  | cons th ts1 =>
    cases ts1 with
    | nil => rw [hs] at h; cases h
    | cons tm ts2 =>
      cases ts2 with
      | cons t3 ts3 => rw [hs] at h; cases h
      | nil =>
        rw [hs] at h
        dsimp only at h
        cases hh : hourTok th with
        | none => rw [hh] at h; cases h
        | some hv0 =>
          cases hm : minuteTok tm with
          | none => rw [hh, hm] at h; cases h
          | some mv0 =>
            have hjoin : l = th ++ ':' :: tm := by
              have := joinSepChar_splitOnChar ':' l
              rw [hs] at this
              exact this.symm
            obtain ⟨hmne, hmdig⟩ := minuteTok_shape tm mv0 hm
            have hlnil : l ≠ [] := by
              rw [hjoin]
              intro hc
              cases th <;> cases hc
            have hlast : l.getLast? = tm.getLast? := by
              rw [hjoin]
              have : th ++ ':' :: tm = (th ++ [':']) ++ tm := by simp
              rw [this]
              exact getLast?_append_right _ tm hmne
            cases htm : tm.getLast? with
            | none =>
              exfalso
              have := (List.getLast?_isSome (l := tm)).mpr hmne
              rw [htm] at this
              cases this
            | some c =>
              exact ⟨hlnil, c, by rw [hlast, htm],
                hmdig c (List.mem_of_mem_getLast? htm)⟩

theorem splitDateTime_eq (l : List Char) (dp tp : List Char)
    (h : splitDateTime l = some (dp, tp)) :
    dp = l.takeWhile (fun c => !isPySpace c)
    ∧ l.dropWhile (fun c => !isPySpace c) ≠ []
    ∧ tp = (l.dropWhile (fun c => !isPySpace c)).dropWhile isPySpace := by
  unfold splitDateTime at h
  dsimp only at h
  cases hrest : l.dropWhile (fun c => !isPySpace c) with
  | nil => rw [hrest] at h; cases h
  | cons a as =>
    rw [hrest] at h
    dsimp only at h
    by_cases hany : ((a :: as).dropWhile isPySpace).any isPySpace
    · rw [if_pos hany] at h; cases h
    · rw [if_neg hany] at h
      simp only [Option.some.injEq, Prod.mk.injEq] at h
      exact ⟨h.1.symm, by simp, h.2.symm⟩

theorem matchDateOnlyFmt_shape (sep : Char) (l : List Char)
    (h : matchDateOnlyFmt sep l = true) :
    (∃ c, l.head? = some c ∧ c.isDigit = true)
    ∧ (∃ c, l.getLast? = some c ∧ c.isDigit = true) := by
  unfold matchDateOnlyFmt at h
  cases hd : dateMatch sep l with
  | none => rw [hd] at h; cases h
  | some ymd =>
    obtain ⟨y, m, d⟩ := ymd
    exact dateMatch_shape sep l y m d hd

theorem matchDateTimeFmt_shape (sep : Char) (withSec : Bool) (l : List Char)
    (h : matchDateTimeFmt sep withSec l = true) :
    (∃ c, l.head? = some c ∧ c.isDigit = true)
    ∧ (∃ c, l.getLast? = some c ∧ c.isDigit = true) := by
  unfold matchDateTimeFmt at h
  cases hsd : splitDateTime l with
  | none => rw [hsd] at h; cases h
  | some dptp =>
    obtain ⟨dp, tp⟩ := dptp
    rw [hsd] at h
    dsimp only at h
    cases hdm : dateMatch sep dp with
    | none => rw [hdm] at h; cases h
    | some ymd =>
      obtain ⟨y, m, d⟩ := ymd
      rw [hdm] at h
      dsimp only at h
      cases htm : (if withSec then timeMatchHMS tp else timeMatchHM tp) with
      | none => rw [htm] at h; cases h
      | some hms =>
        obtain ⟨hv, mv, sv⟩ := hms
        have htp : tp ≠ [] ∧ ∃ c, tp.getLast? = some c ∧ c.isDigit = true := by
          cases withSec with
          | true =>
            rw [if_pos rfl] at htm
            exact timeMatchHMS_shape tp hv mv sv htm
          | false =>
            rw [if_neg (by simp)] at htm
            exact timeMatchHM_shape tp hv mv sv htm
        obtain ⟨hdpe, hrne, htpe⟩ := splitDateTime_eq l dp tp hsd
        obtain ⟨⟨ch, hch, hchd⟩, _⟩ := dateMatch_shape sep dp y m d hdm
        have hsplit : dp ++ l.dropWhile (fun c => !isPySpace c) = l := by
          rw [hdpe]
          exact List.takeWhile_append_dropWhile _ _
        constructor
        · refine ⟨ch, ?_, hchd⟩
          rw [← hsplit, List.head?_append, hch]
          rfl
        · obtain ⟨htpne, cl, hcl, hcld⟩ := htp
          refine ⟨cl, ?_, hcld⟩
          have hrest_last : (l.dropWhile (fun c => !isPySpace c)).getLast? =
              tp.getLast? := by
            have hdec : l.dropWhile (fun c => !isPySpace c) =
                (l.dropWhile (fun c => !isPySpace c)).takeWhile isPySpace ++ tp := by
              rw [htpe]
              exact (List.takeWhile_append_dropWhile _ _).symm
            rw [hdec]
            exact getLast?_append_right _ tp htpne
          rw [← hsplit, getLast?_append_right _ _ hrne, hrest_last, hcl]

theorem valid_head_last_digit (s : String) (h : isValidTimeFormat s = true) :
    s.data ≠ [] ∧ (∀ c ∈ s.data.head?, c.isDigit = true)
    ∧ (∀ c ∈ s.data.getLast?, c.isDigit = true) := by
  have hfacts : (∃ c, s.data.head? = some c ∧ c.isDigit = true)
      ∧ (∃ c, s.data.getLast? = some c ∧ c.isDigit = true) := by
    unfold isValidTimeFormat at h
    simp only [Bool.or_eq_true] at h
    rcases h with ((((h | h) | h) | h) | h) | h
    · exact matchDateTimeFmt_shape '-' true _ h
    · exact matchDateTimeFmt_shape '-' false _ h
    · exact matchDateTimeFmt_shape '/' true _ h
    · exact matchDateTimeFmt_shape '/' false _ h
    · exact matchDateOnlyFmt_shape '-' _ h
    · exact matchDateOnlyFmt_shape '/' _ h
  obtain ⟨⟨c1, hc1, hc1d⟩, ⟨c2, hc2, hc2d⟩⟩ := hfacts
  refine ⟨?_, ?_, ?_⟩
  · intro hc
    rw [hc] at hc1
    cases hc1
  · intro c hc
    rw [hc1] at hc
    cases hc
    exact hc1d
  · intro c hc
    rw [hc2] at hc
    cases hc
    exact hc2d

theorem pyStrip_eq_of_valid (s : String) (h : isValidTimeFormat s = true) :
    pyStrip s = s ∧ s ≠ "" := by
  obtain ⟨hne, hh, hl⟩ := valid_head_last_digit s h
  constructor
  · show (⟨pyStripList s.data⟩ : String) = s
    rw [pyStripList_eq_self s.data
      (fun c hc => isPySpace_eq_false_of_isDigit c (hh c hc))
      (fun c hc => isPySpace_eq_false_of_isDigit c (hl c hc))]
  · intro hc
    subst hc
    exact hne rfl

theorem string_data_nil_iff (s : String) : s.data = [] ↔ s = "" := by
  constructor
  · intro h
    cases s with
    | mk d =>
      simp only at h
      subst h
      rfl
  · intro h
    subst h
    rfl

theorem isValidTimeFormat_all_digits (s : String) (hne : s.data ≠ [])
    (hall : ∀ c ∈ s.data, c.isDigit = true) :
    isValidTimeFormat s = false := by
  have hnosep : ∀ (sep : Char), sep.isDigit = false → sep ∉ s.data := by
    intro sep hsd hmem
    rw [hall sep hmem] at hsd
    cases hsd
  have hdm : ∀ (sep : Char), sep.isDigit = false → dateMatch sep s.data = none := by
    intro sep hsd
    unfold dateMatch
    rw [splitOnChar_no_sep sep s.data (hnosep sep hsd)]
  have hdateOnly : ∀ (sep : Char), sep.isDigit = false →
      matchDateOnlyFmt sep s.data = false := by
    intro sep hsd
    unfold matchDateOnlyFmt
    rw [hdm sep hsd]
  have hdrop : s.data.dropWhile (fun c => !isPySpace c) = [] := by
    rw [List.dropWhile_eq_nil_iff]
    intro x hx
    simp [isPySpace_eq_false_of_isDigit x (hall x hx)]
  have hsdt : splitDateTime s.data = none := by
    unfold splitDateTime
    dsimp only
    rw [hdrop]
  have hdt : ∀ (sep : Char) (withSec : Bool),
      matchDateTimeFmt sep withSec s.data = false := by
    intro sep withSec
    unfold matchDateTimeFmt
    rw [hsdt]
  unfold isValidTimeFormat
  dsimp only
  rw [hdt '-' true, hdt '-' false, hdt '/' true, hdt '/' false,
    hdateOnly '-' (by decide), hdateOnly '/' (by decide)]
  rfl

/-- C5: `fix_time_format` (i) returns the input unchanged with success
when it already matches an accepted `strptime` pattern; (ii) when the
stripped input is purely digits of length 10 (Unix seconds) or 13 (Unix
milliseconds), returns the canonical `YYYY-MM-DD HH:MM:SS` rendering of
that timestamp with success; and (iii) whenever it reports failure — in
particular when no repair strategy produced an accepted pattern — the
returned string is exactly `"2023-01-01 00:00:00"`. -/
theorem fix_time_format_spec (tz : Int) (s : String) :
    (isValidTimeFormat s = true → fix_time_format tz s = (s, true))
    ∧ (pyIsdigit (pyStrip s) = true → (pyStrip s).length = 10 →
        fix_time_format tz s = (renderEpoch tz (digitsVal (pyStrip s).data : Int), true))
    ∧ (pyIsdigit (pyStrip s) = true → (pyStrip s).length = 13 →
        fix_time_format tz s =
          (renderEpoch tz ((digitsVal (pyStrip s).data : Int) / 1000), true))
    ∧ ((fix_time_format tz s).2 = false →
        (fix_time_format tz s).1 = "2023-01-01 00:00:00") := by
  refine ⟨?_, ?_, ?_, ?_⟩
  · intro h
    obtain ⟨hstrip, hne⟩ := pyStrip_eq_of_valid s h
    have hie : s.isEmpty = false :=
      Bool.eq_false_iff.mpr (fun hh => hne ((String.isEmpty_iff s).mp hh))
    unfold fix_time_format
    rw [show pyTruthy (.str s) = true by simp [pyTruthy, hie]]
    dsimp only
    rw [hstrip, h]
    rfl
  · intro hdig hlen
    have hne : s ≠ "" := by
      intro hc
      subst hc
      exact absurd hdig (by decide)
    have hie : s.isEmpty = false :=
      Bool.eq_false_iff.mpr (fun hh => hne ((String.isEmpty_iff s).mp hh))
    have hvf : isValidTimeFormat (pyStrip s) = false := by
      apply isValidTimeFormat_all_digits
      · intro hc
        have : pyStrip s = "" := (string_data_nil_iff _).mp hc
        rw [this] at hdig
        exact absurd hdig (by decide)
      · intro c hc
        have := hdig
        unfold pyIsdigit at this
        simp only [Bool.and_eq_true, List.all_eq_true] at this
        exact this.2 c hc
    unfold fix_time_format
    rw [show pyTruthy (.str s) = true by simp [pyTruthy, hie]]
    dsimp only
    rw [hvf]
    simp [hdig, hlen]
  · intro hdig hlen
    have hne : s ≠ "" := by
      intro hc
      subst hc
      exact absurd hdig (by decide)
    have hie : s.isEmpty = false :=
      Bool.eq_false_iff.mpr (fun hh => hne ((String.isEmpty_iff s).mp hh))
    have hvf : isValidTimeFormat (pyStrip s) = false := by
      apply isValidTimeFormat_all_digits
      · intro hc
        have : pyStrip s = "" := (string_data_nil_iff _).mp hc
        rw [this] at hdig
        exact absurd hdig (by decide)
      · intro c hc
        have := hdig
        unfold pyIsdigit at this
        simp only [Bool.and_eq_true, List.all_eq_true] at this
        exact this.2 c hc
    unfold fix_time_format
    rw [show pyTruthy (.str s) = true by simp [pyTruthy, hie]]
    dsimp only
    rw [hvf]
    simp [hdig, hlen]
  · unfold fix_time_format
    repeat' (first | split | dsimp only)
    all_goals simp

/-- Witness for C5: an already-valid timestamp is returned unchanged; a
10-digit and a 13-digit timestamp are rendered canonically (UTC+8
offset); an unrepairable string yields the fixed fallback. -/
theorem fix_time_format_spec_witness :
    fix_time_format 28800 "2023-01-01 12:00:00" = ("2023-01-01 12:00:00", true)
    ∧ fix_time_format 28800 "1696118400" = ("2023-10-01 08:00:00", true)
    ∧ fix_time_format 28800 "1696118400000" = ("2023-10-01 08:00:00", true)
    ∧ (fix_time_format 28800 "garbage").1 = "2023-01-01 00:00:00" := by
  refine ⟨?_, ?_, ?_, ?_⟩
  · exact (fix_time_format_spec 28800 "2023-01-01 12:00:00").1 rfl
  · have h := (fix_time_format_spec 28800 "1696118400").2.1 rfl rfl
    rw [h]
    rfl
  · have h := (fix_time_format_spec 28800 "1696118400000").2.2.1 rfl rfl
    rw [h]
    rfl
  · exact (fix_time_format_spec 28800 "garbage").2.2.2 rfl
